import Mathlib

/-!
Pong (src/main.go): a shallow embedding of the simulation core.

The Go program keeps all of its numeric state in `float64` cells and two `int`
counters.  In this development

* `float64` values are read as exact rationals (`ℚ`): every comparison and every
  arithmetic operation of the source is carried out without rounding, and the
  special values NaN and ±Inf are not represented;
* Go `int` values are integers in two's complement on 64 bits: `++` wraps
  (`wrapInt`);
* `ebiten.IsKeyPressed` reads a per-tick keyboard snapshot `Key → Bool`;
* `rand.Float64` reads the next element of a stream of draws (`Rand`).

Rendering (`Draw`) reads the state and never writes it; it is not modelled.
-/

namespace Pong

/-! ## Constants (src/main.go, lines 14-22) -/

/-- Logical canvas width, an untyped integer constant of the source. -/
def screenWidth : Nat := 320
/-- Logical canvas height. -/
def screenHeight : Nat := 240
/-- Side of the ball square (the source calls it a radius). -/
def circleRadius : Nat := 16
/-- Paddle width. -/
def paddleWidth : Nat := 8
/-- Paddle height. -/
def paddleHeight : Nat := 48
/-- Paddle step per tick. -/
def movementSpeed : Nat := 4
/-- Per-tick increment of the speed multiplier, the constant `0.00001`. -/
def speedIncrease : ℚ := 1 / 100000

/-- Go `int` on a 64-bit target: the representative of `n` in `[-2^63, 2^63)`. -/
def wrapInt (n : Int) : Int := (n + 2 ^ 63) % 2 ^ 64 - 2 ^ 63

/-! ## The `ebiten.GeoM` value used to store positions -/

/-- Affine matrix of the ebiten library, stored as in the library: `a_1` and `d_1`
are the diagonal entries minus one, so that the zero value is the identity. -/
structure GeoM where
  a_1 : ℚ
  b : ℚ
  c : ℚ
  d_1 : ℚ
  tx : ℚ
  ty : ℚ
  deriving DecidableEq

/-- The zero value `ebiten.GeoM{}`. -/
def GeoM.zero : GeoM := ⟨0, 0, 0, 0, 0, 0⟩

/-- Library method `GeoM.Element(i, j)`.  The library panics outside the 2x3 index
range; the program only reads `(0, 2)` and `(1, 2)`, and the panic is rendered
here as the value `0`. -/
def GeoM.Element (g : GeoM) (i j : Nat) : ℚ :=
  match i, j with
  | 0, 0 => g.a_1 + 1
  | 0, 1 => g.b
  | 0, 2 => g.tx
  | 1, 0 => g.c
  | 1, 1 => g.d_1 + 1
  | 1, 2 => g.ty
  | _, _ => 0

/-- Library method `GeoM.SetElement(i, j, e)`; out-of-range indices (a panic in the
library, never used by the program) leave the matrix as it is. -/
def GeoM.SetElement (g : GeoM) (i j : Nat) (e : ℚ) : GeoM :=
  match i, j with
  | 0, 0 => { g with a_1 := e - 1 }
  | 0, 1 => { g with b := e }
  | 0, 2 => { g with tx := e }
  | 1, 0 => { g with c := e }
  | 1, 1 => { g with d_1 := e - 1 }
  | 1, 2 => { g with ty := e }
  | _, _ => g

/-- Library method `GeoM.Translate(tx, ty)`: adds to the translation column. -/
def GeoM.Translate (g : GeoM) (tx ty : ℚ) : GeoM :=
  { g with tx := g.tx + tx, ty := g.ty + ty }

/-! ## Keyboard -/

/-- The four keys the program polls. -/
inductive Key where
  | KeyW
  | KeyS
  | KeyI
  | KeyK
  deriving DecidableEq

/-- Keyboard snapshot of one tick: what `ebiten.IsKeyPressed` answers. -/
abbrev Keyboard := Key → Bool

/-- Library function `ebiten.IsKeyPressed`, reading the snapshot of the tick. -/
def IsKeyPressed (kb : Keyboard) (k : Key) : Bool := kb k

/-! ## Paddle (src/main.go, lines 24-35) -/

/-- Paddle record of the source: a position stored in a `GeoM`. -/
structure Paddle where
  position : GeoM
  deriving DecidableEq

/-- Method `Paddle.Update` (lines 28-35): two independent guarded moves, the second
guard reading the position left by the first. -/
def Paddle.Update (p : Paddle) (kb : Keyboard) (upKey downKey : Key) : Paddle :=
  let p1 : Paddle :=
    if IsKeyPressed kb upKey = true ∧
        p.position.Element 1 2 - ((paddleHeight / 2 : Nat) : ℚ) > 0 then
      { p with position := p.position.Translate 0 (-(movementSpeed : ℚ)) }
    else p
  if IsKeyPressed kb downKey = true ∧
      p1.position.Element 1 2 + ((paddleHeight / 2 : Nat) : ℚ) < (screenHeight : ℚ) then
    { p1 with position := p1.position.Translate 0 (movementSpeed : ℚ) }
  else p1

/-! ## Random source -/

/-- Generator state behind `rand.Float64`: a stream of draws and a cursor. -/
structure Rand where
  draws : Nat → ℚ
  next : Nat

/-- Library function `rand.Float64`: returns the draw under the cursor and advances. -/
def Rand.Float64 (r : Rand) : ℚ × Rand :=
  (r.draws r.next, { r with next := r.next + 1 })

/-- Contract of `rand.Float64`: every draw lies in `[0, 1)`. -/
def Rand.InUnit (r : Rand) : Prop := ∀ n, 0 ≤ r.draws n ∧ r.draws n < 1

/-! ## Ball (src/main.go, lines 45-103) -/

/-- Ball record of the source. -/
structure Ball where
  position : GeoM
  speedX : ℚ
  speedY : ℚ
  deriving DecidableEq

/-- Method `Ball.Reset` (lines 98-103): centre the ball, then draw the horizontal and
the vertical speed, in this order. -/
def Ball.Reset (b : Ball) (rng : Rand) : Ball × Rand :=
  let pos1 := b.position.SetElement 0 2 ((screenWidth / 2 : Nat) : ℚ)
  let pos2 := pos1.SetElement 1 2 ((screenHeight / 2 : Nat) : ℚ)
  let d1 := rng.Float64
  let d2 := d1.2.Float64
  ({ position := pos2, speedX := d1.1 * 2 - 1, speedY := d2.1 * 2 - 1 }, d2.2)

/-- The cells `Ball.Update` works on: the receiver, the two cells it is handed by
pointer (`score`, `speedMultiplier`) and the generator. -/
structure BallCells where
  ball : Ball
  score : Int
  speedMultiplier : ℚ
  rng : Rand

/-- Line 52: translate the position by the current speed. -/
def Ball.translate (s : BallCells) : BallCells :=
  { s with ball := { s.ball with
      position := s.ball.position.Translate s.ball.speedX s.ball.speedY } }

/-- Lines 55-57: one combined test for the top and the bottom wall. -/
def Ball.bounceWalls (s : BallCells) : BallCells :=
  if s.ball.position.Element 1 2 - ((circleRadius / 2 : Nat) : ℚ) < 0 ∨
      s.ball.position.Element 1 2 + ((circleRadius / 2 : Nat) : ℚ) > (screenHeight : ℚ) then
    { s with ball := { s.ball with speedY := -s.ball.speedY } }
  else s

/-- The four-way strict overlap test of lines 60-63 (and 67-70) between the ball
square and the rectangle of paddle `p`. -/
def Ball.overlaps (b : Ball) (p : Paddle) : Prop :=
  b.position.Element 0 2 - ((circleRadius / 2 : Nat) : ℚ)
      < p.position.Element 0 2 + ((paddleWidth / 2 : Nat) : ℚ) ∧
    b.position.Element 0 2 + ((circleRadius / 2 : Nat) : ℚ)
      > p.position.Element 0 2 - ((paddleWidth / 2 : Nat) : ℚ) ∧
    b.position.Element 1 2 - ((circleRadius / 2 : Nat) : ℚ)
      < p.position.Element 1 2 + ((paddleHeight / 2 : Nat) : ℚ) ∧
    b.position.Element 1 2 + ((circleRadius / 2 : Nat) : ℚ)
      > p.position.Element 1 2 - ((paddleHeight / 2 : Nat) : ℚ)

instance (b : Ball) (p : Paddle) : Decidable (Ball.overlaps b p) := by
  unfold Ball.overlaps; infer_instance

/-- Lines 60-65 (with `p` the player) and 67-72 (with `p` the enemy). -/
def Ball.bouncePaddle (p : Paddle) (s : BallCells) : BallCells :=
  if Ball.overlaps s.ball p then
    { s with ball := { s.ball with speedX := -s.ball.speedX } }
  else s

/-- Lines 75-78: past the right edge, the score is incremented and the ball reset. -/
def Ball.scoreRight (s : BallCells) : BallCells :=
  if s.ball.position.Element 0 2 + ((circleRadius / 2 : Nat) : ℚ) > (screenWidth : ℚ) then
    let r := s.ball.Reset s.rng
    { s with score := wrapInt (s.score + 1), ball := r.1, rng := r.2 }
  else s

/-- Lines 81-83: past the left edge, the ball is reset. -/
def Ball.resetLeft (s : BallCells) : BallCells :=
  if s.ball.position.Element 0 2 - ((circleRadius / 2 : Nat) : ℚ) < 0 then
    let r := s.ball.Reset s.rng
    { s with ball := r.1, rng := r.2 }
  else s

/-- Lines 86-87: both speeds are multiplied by the multiplier. -/
def Ball.ramp (s : BallCells) : BallCells :=
  { s with ball := { s.ball with
      speedX := s.ball.speedX * s.speedMultiplier,
      speedY := s.ball.speedY * s.speedMultiplier } }

/-- Method `Ball.Update` (lines 51-88): the six steps of the body, in source order. -/
def Ball.Update (b : Ball) (player enemy : Paddle) (score : Int) (speedMultiplier : ℚ)
    (rng : Rand) : BallCells :=
  Ball.ramp (Ball.resetLeft (Ball.scoreRight (Ball.bouncePaddle enemy
    (Ball.bouncePaddle player (Ball.bounceWalls (Ball.translate
      { ball := b, score := score, speedMultiplier := speedMultiplier, rng := rng }))))))

/-! ## Game (src/main.go, lines 105-182) -/

/-- The part of `ebiten.DrawImageOptions` that is a plain value: its `GeoM`.  The
field `scoreOp` of the game is never written. -/
structure DrawImageOptions where
  GeoM : GeoM
  deriving DecidableEq

/-- Game record of the source. -/
structure Game where
  count : Int
  player : Paddle
  enemy : Paddle
  ball : Ball
  score : Int
  scoreX : ℚ
  scoreY : ℚ
  scoreOp : DrawImageOptions
  speedMultiplier : ℚ
  deriving DecidableEq

/-- What one call of `Game.Update` leaves behind: the game, the generator, and the
returned `error` (`none` is Go's `nil`). -/
structure UpdateResult where
  game : Game
  rng : Rand
  err : Option String

/-- Method `Game.Update` (lines 119-135). -/
def Game.Update (g : Game) (kb : Keyboard) (rng : Rand) : UpdateResult :=
  let count := wrapInt (g.count + 1)
  let player := g.player.Update kb Key.KeyW Key.KeyS
  let enemy := g.enemy.Update kb Key.KeyI Key.KeyK
  let r := g.ball.Update player enemy g.score g.speedMultiplier rng
  { game := { g with
      count := count, player := player, enemy := enemy, ball := r.ball,
      score := r.score, speedMultiplier := r.speedMultiplier + speedIncrease },
    rng := r.rng,
    err := none }

/-- Method `Game.Layout` (lines 147-149). -/
def Game.Layout (_g : Game) (_outsideWidth _outsideHeight : Int) : Int × Int :=
  ((screenWidth : Int), (screenHeight : Int))

/-- The game value built by `main` (lines 155-182); `rng` is the generator state
before the two draws of the initial ball speed. -/
def main (rng : Rand) : Game :=
  let player : Paddle :=
    { position := GeoM.zero.Translate ((screenWidth / 6 : Nat) : ℚ) ((screenHeight / 2 : Nat) : ℚ) }
  let enemy : Paddle :=
    { position := GeoM.zero.Translate ((screenWidth - screenWidth / 6 : Nat) : ℚ)
        ((screenHeight / 2 : Nat) : ℚ) }
  let d1 := rng.Float64
  let d2 := d1.2.Float64
  let ball : Ball :=
    { position := GeoM.zero.Translate ((screenWidth / 2 : Nat) : ℚ) ((screenHeight / 2 : Nat) : ℚ),
      speedX := d1.1 * 2 - 1, speedY := d2.1 * 2 - 1 }
  { count := 0, player := player, enemy := enemy, ball := ball, score := 0,
    scoreX := ((screenWidth / 2 : Nat) : ℚ), scoreY := 20,
    scoreOp := { GeoM := GeoM.zero }, speedMultiplier := 1 }

/-- The frame loop of `ebiten.RunGame` as far as the state goes: one `Game.Update`
per keyboard snapshot, in order. -/
def Game.run (g : Game) (rng : Rand) : List Keyboard → Game × Rand
  | [] => (g, rng)
  | kb :: kbs =>
    let r := g.Update kb rng
    Game.run r.game r.rng kbs

/-- A paddle driven alone: one `Paddle.Update` per keyboard snapshot. -/
def Paddle.run (p : Paddle) (upKey downKey : Key) : List Keyboard → Paddle
  | [] => p
  | kb :: kbs => Paddle.run (p.Update kb upKey downKey) upKey downKey kbs

/-! ## Auxiliary predicates and concrete inputs -/

/-- Grid invariant of a paddle: `y = 24 + 4 k` for some `k ≤ 48`. -/
def Paddle.OnGrid (p : Paddle) : Prop :=
  ∃ k : Nat, k ≤ 48 ∧ p.position.Element 1 2 = 24 + 4 * (k : ℚ)

/-- A paddle at horizontal position `x` and vertical position `y`, built as `main`
builds its paddles: the zero `GeoM`, translated. -/
def paddleAt (x y : ℚ) : Paddle := { position := GeoM.zero.Translate x y }

/-- A ball at `(x, y)` with speed `(vx, vy)`, built as `main` builds its ball. -/
def ballAt (x y vx vy : ℚ) : Ball :=
  { position := GeoM.zero.Translate x y, speedX := vx, speedY := vy }

/-- Keyboard with every key held. -/
def kbAll : Keyboard := fun _ => true

/-- Keyboard with only `W` (player up) held. -/
def kbW : Keyboard := fun k => decide (k = Key.KeyW)

/-- A generator whose every draw is `1/2`. -/
def rngHalf : Rand := { draws := fun _ => 1 / 2, next := 0 }

/-- A generator whose every draw is `1/4`. -/
def rngQuarter : Rand := { draws := fun _ => 1 / 4, next := 0 }

/-- The player paddle where `main` puts it: (screenWidth/6, screenHeight/2) = (53, 120). -/
def playerHome : Paddle := paddleAt 53 120

/-- The enemy paddle where `main` puts it:
(screenWidth - screenWidth/6, screenHeight/2) = (267, 120). -/
def enemyHome : Paddle := paddleAt 267 120

/-- A ball one step right of the position `(screenWidth/6 + paddleWidth/2, screenHeight/2)
= (57, 120)`, moving left by one: its translated position is (57, 120). -/
def ballIntoPlayer : Ball := ballAt 58 120 (-1) 0

/-- A ball in play near the top right corner, at (312, 8) with speed (1, -1): its
translated position (313, 7) crosses the top wall and the right edge in the same tick. -/
def ballCornerExit : Ball := ballAt 312 8 1 (-1)

/-- A ball that crosses the top wall in mid-field: translated position (100, 7). -/
def ballTopWall : Ball := ballAt 100 9 0 (-2)

/-- A ball in free flight in mid-field: translated position (161, 121). -/
def ballFree : Ball := ballAt 160 120 1 1

/-- A paddle at (100, 120), the left one of a pair placed ten apart. -/
def paddleTwinLeft : Paddle := paddleAt 100 120

/-- A paddle at (110, 120), the right one of the pair. -/
def paddleTwinRight : Paddle := paddleAt 110 120

/-- A ball whose translated position (105, 120) lies on both paddles of the pair. -/
def ballOnTwins : Ball := ballAt 104 120 1 0

/-- The ball of the debounce example: at (53, 100) with speed (1/2, 0). -/
def ballInPlayer : Ball := ballAt 53 100 (1 / 2) 0

/-- The debounce example after its first tick: `Ball.Update` against the home paddles,
multiplier 1. -/
def debounceTick1 : BallCells := ballInPlayer.Update playerHome enemyHome 0 1 rngHalf

/-- The debounce example after its second tick, again with multiplier 1. -/
def debounceTick2 : BallCells :=
  debounceTick1.ball.Update playerHome enemyHome debounceTick1.score 1 debounceTick1.rng

/-- A generator whose every draw is `0`, the least value `rand.Float64` can return. -/
def rngZero : Rand := { draws := fun _ => 0, next := 0 }

/-- The ball driven alone: one `Ball.Update` per entry of the list, each entry giving
the two paddles and the multiplier that tick hands to it; score and generator are
threaded through. -/
def Ball.runTicks (b : Ball) (score : Int) (rng : Rand) :
    List (Paddle × Paddle × ℚ) → Ball × Int × Rand
  | [] => (b, score, rng)
  | (player, enemy, m) :: ts =>
    let r := b.Update player enemy score m rng
    Ball.runTicks r.ball r.score r.rng ts

/-- The ball right after a `Reset` whose draws are both `1/2`: at the centre, speed (0, 0). -/
def ballAfterHalfReset : Ball := (ballCornerExit.Reset rngHalf).1

/-- The game of `main` holding that ball. -/
def gameAfterHalfReset : Game := { main rngHalf with ball := ballAfterHalfReset }

/-! ## The tick as a sequence of five steps (the reading of the specification) -/

/-- Lines 52-83 of `Ball.Update`: everything before the ramp. -/
def Ball.beforeRamp (b : Ball) (player enemy : Paddle) (score : Int) (speedMultiplier : ℚ)
    (rng : Rand) : BallCells :=
  Ball.resetLeft (Ball.scoreRight (Ball.bouncePaddle enemy
    (Ball.bouncePaddle player (Ball.bounceWalls (Ball.translate
      { ball := b, score := score, speedMultiplier := speedMultiplier, rng := rng })))))

/-- Step 1 of a tick: the counter goes up by one (Go `int` increment). -/
def Game.stepCount (g : Game) : Game := { g with count := wrapInt (g.count + 1) }

/-- Step 2 of a tick: the player paddle is updated from the keys `W` and `S`. -/
def Game.stepPlayer (kb : Keyboard) (g : Game) : Game :=
  { g with player := g.player.Update kb Key.KeyW Key.KeyS }

/-- Step 3 of a tick: the enemy paddle is updated from the keys `I` and `K`. -/
def Game.stepEnemy (kb : Keyboard) (g : Game) : Game :=
  { g with enemy := g.enemy.Update kb Key.KeyI Key.KeyK }

/-- Step 4 of a tick: the ball is updated against the paddles and the multiplier the
game holds at that moment; the score and the generator come back changed or not. -/
def Game.stepBall (g : Game) (rng : Rand) : Game × Rand :=
  let r := g.ball.Update g.player g.enemy g.score g.speedMultiplier rng
  ({ g with ball := r.ball, score := r.score, speedMultiplier := r.speedMultiplier }, r.rng)

/-- Step 5 of a tick: the multiplier goes up by `speedIncrease`. -/
def Game.stepMultiplier (g : Game) : Game :=
  { g with speedMultiplier := g.speedMultiplier + speedIncrease }

/-- The tick as the specification words it: the five steps in order, and a nil error. -/
def Game.tickSpec (g : Game) (kb : Keyboard) (rng : Rand) : UpdateResult :=
  let g3 := Game.stepEnemy kb (Game.stepPlayer kb (Game.stepCount g))
  let r := Game.stepBall g3 rng
  { game := Game.stepMultiplier r.1, rng := r.2, err := none }

/-! ## A run that scores for ever -/

/-- Keyboard with only `I` (enemy up) held. -/
def kbI : Keyboard := fun k => decide (k = Key.KeyI)

/-- A generator whose draws alternate `3/4, 1/2, 3/4, 1/2, ...`: every reset it feeds
gives the speed `(1/2, 0)` before the ramp. -/
def rngFlight : Rand := { draws := fun n => if n % 2 = 0 then 3 / 4 else 1 / 2, next := 0 }

/-- Invariant of the run of `main rngFlight` under `kbI` and `rngFlight`: the ball flies
to the right along `y = 120` with speed at least `1/2`, the generator is at an even
cursor, and the enemy paddle is out of the ball's way, either because it has moved up
to `y ≤ 88` or because the run is in its first eight ticks and the ball is still near
the centre. -/
def FlightInv (g : Game) (rng : Rand) : Prop :=
  g.ball.position.Element 1 2 = 120 ∧ g.ball.speedY = 0 ∧
  160 ≤ g.ball.position.Element 0 2 ∧ g.ball.position.Element 0 2 ≤ 312 ∧
  1 / 2 ≤ g.ball.speedX ∧ 1 ≤ g.speedMultiplier ∧
  rng.draws = rngFlight.draws ∧ rng.next % 2 = 0 ∧
  g.player.position.Element 0 2 = 53 ∧ g.enemy.position.Element 0 2 = 267 ∧
  (g.enemy.position.Element 1 2 ≤ 88 ∨
    ∃ k : Nat, k < 8 ∧ g.enemy.position.Element 1 2 = 120 - 4 * (k : ℚ) ∧
      g.ball.position.Element 0 2 ≤ 160 + (k : ℚ) ∧
      g.ball.speedX ≤ 1 / 2 + (k : ℚ) / 100 ∧
      g.speedMultiplier ≤ 1 + (k : ℚ) / 1000) ∧
  g.score < 2 ^ 63

/-- Progress measure of that run: 305 per point scored plus twice the distance flown
since the centre. -/
def flightProgress (g : Game) : ℚ :=
  305 * (g.score : ℚ) + 2 * (g.ball.position.Element 0 2 - 160)

/-! ## Constant arithmetic of the source, evaluated -/

theorem halfPaddleHeight_eq : ((paddleHeight / 2 : Nat) : ℚ) = 24 := by
  norm_num [paddleHeight]

theorem halfPaddleWidth_eq : ((paddleWidth / 2 : Nat) : ℚ) = 4 := by
  norm_num [paddleWidth]

theorem halfCircle_eq : ((circleRadius / 2 : Nat) : ℚ) = 8 := by
  norm_num [circleRadius]

theorem screenHeight_eq : (screenHeight : ℚ) = 240 := by
  norm_num [screenHeight]

theorem screenWidth_eq : (screenWidth : ℚ) = 320 := by
  norm_num [screenWidth]

theorem movementSpeed_eq : (movementSpeed : ℚ) = 4 := by
  norm_num [movementSpeed]

theorem halfScreenWidth_eq : ((screenWidth / 2 : Nat) : ℚ) = 160 := by
  norm_num [screenWidth]

theorem halfScreenHeight_eq : ((screenHeight / 2 : Nat) : ℚ) = 120 := by
  norm_num [screenHeight]

theorem sixthScreenWidth_eq : ((screenWidth / 6 : Nat) : ℚ) = 53 := by
  norm_num [screenWidth]

theorem enemyX_eq : ((screenWidth - screenWidth / 6 : Nat) : ℚ) = 267 := by
  norm_num [screenWidth]

/-! ## Paddle: the vertical coordinate after an update -/

/-- The vertical coordinate after `Paddle.Update`, as a function of the one before. -/
theorem Paddle.Update_y (p : Paddle) (kb : Keyboard) (u d : Key) :
    (p.Update kb u d).position.Element 1 2 =
      (if kb d = true ∧
          (if kb u = true ∧ p.position.Element 1 2 > 24 then p.position.Element 1 2 - 4
            else p.position.Element 1 2) + 24 < 240
        then (if kb u = true ∧ p.position.Element 1 2 > 24 then p.position.Element 1 2 - 4
            else p.position.Element 1 2) + 4
        else (if kb u = true ∧ p.position.Element 1 2 > 24 then p.position.Element 1 2 - 4
            else p.position.Element 1 2)) := by
  unfold Paddle.Update
  simp only [IsKeyPressed, halfPaddleHeight_eq, screenHeight_eq, movementSpeed_eq, gt_iff_lt,
    sub_pos]
  by_cases h1 : kb u = true ∧ 24 < p.position.Element 1 2
  · simp only [h1, and_self, if_true]
    by_cases h2 : kb d = true ∧
        ({ position := p.position.Translate 0 (-4) } : Paddle).position.Element 1 2 + 24 < 240
    · have h2' : kb d = true ∧ p.position.Element 1 2 - 4 + 24 < 240 := by
        simpa [GeoM.Translate, GeoM.Element, sub_eq_add_neg] using h2
      rw [if_pos h2, if_pos h2']
      simp [GeoM.Translate, GeoM.Element, sub_eq_add_neg]
    · have h2' : ¬ (kb d = true ∧ p.position.Element 1 2 - 4 + 24 < 240) := by
        simpa [GeoM.Translate, GeoM.Element, sub_eq_add_neg] using h2
      rw [if_neg h2, if_neg h2']
      simp [GeoM.Translate, GeoM.Element, sub_eq_add_neg]
  · rw [if_neg h1, if_neg h1]
    by_cases h2 : kb d = true ∧ p.position.Element 1 2 + 24 < 240
    · rw [if_pos h2, if_pos h2]
      simp [GeoM.Translate, GeoM.Element]
    · rw [if_neg h2, if_neg h2]

theorem Paddle.OnGrid.bounds {p : Paddle} (h : p.OnGrid) :
    ((paddleHeight / 2 : Nat) : ℚ) ≤ p.position.Element 1 2 ∧
      p.position.Element 1 2 ≤ (screenHeight : ℚ) - ((paddleHeight / 2 : Nat) : ℚ) := by
  obtain ⟨k, hk, hy⟩ := h
  have hk' : (k : ℚ) ≤ 48 := by exact_mod_cast hk
  have hk0 : (0 : ℚ) ≤ (k : ℚ) := Nat.cast_nonneg k
  rw [halfPaddleHeight_eq, screenHeight_eq, hy]
  constructor <;> linarith

theorem Paddle.OnGrid.update {p : Paddle} (h : p.OnGrid) (kb : Keyboard) (u d : Key) :
    (p.Update kb u d).OnGrid := by
  obtain ⟨k, hk, hy⟩ := h
  unfold Paddle.OnGrid
  rw [Paddle.Update_y, hy]
  have hk' : (k : ℚ) ≤ 48 := by exact_mod_cast hk
  by_cases h1 : kb u = true ∧ (24 : ℚ) + 4 * (k : ℚ) > 24
  · have hkpos : 0 < k := by
      have : (0 : ℚ) < (k : ℚ) := by linarith [h1.2]
      exact_mod_cast this
    obtain ⟨j, rfl⟩ : ∃ j, k = j + 1 := ⟨k - 1, by omega⟩
    rw [if_pos h1]
    push_cast at hk' ⊢
    by_cases h2 : kb d = true ∧ (24 : ℚ) + 4 * ((j : ℚ) + 1) - 4 + 24 < 240
    · rw [if_pos h2]
      exact ⟨j + 1, hk, by push_cast; ring⟩
    · rw [if_neg h2]
      exact ⟨j, by omega, by ring⟩
  · rw [if_neg h1]
    by_cases h2 : kb d = true ∧ (24 : ℚ) + 4 * (k : ℚ) + 24 < 240
    · rw [if_pos h2]
      have hlt : (k : ℚ) < 48 := by linarith [h2.2]
      have hlt' : k < 48 := by exact_mod_cast hlt
      exact ⟨k + 1, by omega, by push_cast; ring⟩
    · rw [if_neg h2]
      exact ⟨k, hk, rfl⟩

theorem Paddle.OnGrid.run {p : Paddle} (h : p.OnGrid) (u d : Key) (kbs : List Keyboard) :
    (p.run u d kbs).OnGrid := by
  induction kbs generalizing p with
  | nil => exact h
  | cons kb kbs ih => exact ih (h.update kb u d)

theorem main_player_onGrid (rng : Rand) : (main rng).player.OnGrid :=
  ⟨24, by norm_num, by
    simp only [main, GeoM.Translate, GeoM.zero, GeoM.Element, halfScreenHeight_eq]
    norm_num⟩

theorem main_enemy_onGrid (rng : Rand) : (main rng).enemy.OnGrid :=
  ⟨24, by norm_num, by
    simp only [main, GeoM.Translate, GeoM.zero, GeoM.Element, halfScreenHeight_eq]
    norm_num⟩

theorem Game.run_onGrid (g : Game) (rng : Rand) (kbs : List Keyboard)
    (hp : g.player.OnGrid) (he : g.enemy.OnGrid) :
    (Game.run g rng kbs).1.player.OnGrid ∧ (Game.run g rng kbs).1.enemy.OnGrid := by
  induction kbs generalizing g rng with
  | nil => exact ⟨hp, he⟩
  | cons kb kbs ih =>
    exact ih (g.Update kb rng).game (g.Update kb rng).rng
      (hp.update kb Key.KeyW Key.KeyS) (he.update kb Key.KeyI Key.KeyK)

theorem paddleAt_y (x y : ℚ) : (paddleAt x y).position.Element 1 2 = y := by
  simp [paddleAt, GeoM.zero, GeoM.Translate, GeoM.Element]

theorem paddleAt_x (x y : ℚ) : (paddleAt x y).position.Element 0 2 = x := by
  simp [paddleAt, GeoM.zero, GeoM.Translate, GeoM.Element]

/-- The concrete paddles used below are the ones `main` builds. -/
theorem main_paddles_home (rng : Rand) :
    (main rng).player = playerHome ∧ (main rng).enemy = enemyHome := by
  simp only [main, playerHome, enemyHome, paddleAt, sixthScreenWidth_eq, enemyX_eq,
    halfScreenHeight_eq, and_self]

/-! ## C1-C2, C10: paddle movement -/

/-- C1: starting from the paddles built by `main` (centre y = 120), after any finite
sequence of ticks with arbitrary key states the centre y of a paddle lies between
`paddleHeight/2` and `screenHeight - paddleHeight/2`.  Stated for a paddle driven alone
by `Paddle.Update` with any key pair, and for both paddles of the game under
`Game.Update`. -/
theorem C1_paddle_y_in_bounds (rng0 rng : Rand) (u d : Key) (kbs : List Keyboard) :
    (((paddleHeight / 2 : Nat) : ℚ) ≤ ((main rng0).player.run u d kbs).position.Element 1 2 ∧
      ((main rng0).player.run u d kbs).position.Element 1 2
        ≤ (screenHeight : ℚ) - ((paddleHeight / 2 : Nat) : ℚ)) ∧
    (((paddleHeight / 2 : Nat) : ℚ) ≤ ((main rng0).enemy.run u d kbs).position.Element 1 2 ∧
      ((main rng0).enemy.run u d kbs).position.Element 1 2
        ≤ (screenHeight : ℚ) - ((paddleHeight / 2 : Nat) : ℚ)) ∧
    (((paddleHeight / 2 : Nat) : ℚ) ≤ (Game.run (main rng0) rng kbs).1.player.position.Element 1 2 ∧
      (Game.run (main rng0) rng kbs).1.player.position.Element 1 2
        ≤ (screenHeight : ℚ) - ((paddleHeight / 2 : Nat) : ℚ)) ∧
    (((paddleHeight / 2 : Nat) : ℚ) ≤ (Game.run (main rng0) rng kbs).1.enemy.position.Element 1 2 ∧
      (Game.run (main rng0) rng kbs).1.enemy.position.Element 1 2
        ≤ (screenHeight : ℚ) - ((paddleHeight / 2 : Nat) : ℚ)) := by
  have hg := Game.run_onGrid (main rng0) rng kbs (main_player_onGrid rng0) (main_enemy_onGrid rng0)
  exact ⟨((main_player_onGrid rng0).run u d kbs).bounds,
    ((main_enemy_onGrid rng0).run u d kbs).bounds, hg.1.bounds, hg.2.bounds⟩

/-- C2, as stated, fails: a paddle at y = 25 with the up key held passes the guard
(`25 - 24 > 0`, a test on the position before the move) and lands on y = 21, whose
top edge `21 - 24` is above the screen. -/
theorem C2_counterexample :
    ((paddleAt 53 25).Update kbW Key.KeyW Key.KeyS).position.Element 1 2 = 21 ∧
    ((paddleAt 53 25).Update kbW Key.KeyW Key.KeyS).position.Element 1 2
      ≠ (paddleAt 53 25).position.Element 1 2 ∧
    ¬ (0 ≤ ((paddleAt 53 25).Update kbW Key.KeyW Key.KeyS).position.Element 1 2
          - ((paddleHeight / 2 : Nat) : ℚ) ∧
      ((paddleAt 53 25).Update kbW Key.KeyW Key.KeyS).position.Element 1 2
          + ((paddleHeight / 2 : Nat) : ℚ) ≤ (screenHeight : ℚ)) := by
  have h : ((paddleAt 53 25).Update kbW Key.KeyW Key.KeyS).position.Element 1 2 = 21 := by
    rw [Paddle.Update_y, paddleAt_y]
    have hS : Key.KeyS ≠ Key.KeyW := by decide
    norm_num [kbW, hS]
  rw [h, paddleAt_y, halfPaddleHeight_eq, screenHeight_eq]
  norm_num

/-- C2, amended: the guards of `Paddle.Update` test the position before the move.  For
every paddle whose centre y is in bounds and not strictly within one step of a bound
(`y = 24` or `28 ≤ y`, and `y = 216` or `y ≤ 212`), and every key state, the position
after the update keeps the paddle fully within `[0, screenHeight]`. -/
theorem C2_update_keeps_paddle_on_screen (p : Paddle) (kb : Keyboard) (u d : Key)
    (hlo : p.position.Element 1 2 = 24 ∨ 28 ≤ p.position.Element 1 2)
    (hhi : p.position.Element 1 2 = 216 ∨ p.position.Element 1 2 ≤ 212) :
    0 ≤ (p.Update kb u d).position.Element 1 2 - ((paddleHeight / 2 : Nat) : ℚ) ∧
      (p.Update kb u d).position.Element 1 2 + ((paddleHeight / 2 : Nat) : ℚ)
        ≤ (screenHeight : ℚ) := by
  rw [Paddle.Update_y, halfPaddleHeight_eq, screenHeight_eq]
  rcases hlo with hlo | hlo <;> rcases hhi with hhi | hhi <;>
    split_ifs <;> constructor <;> linarith

/-- Witness of C2 (amended): the paddle at the centre height 120 with `W` held. -/
theorem C2_update_keeps_paddle_on_screen_witness :
    ((paddleAt 53 120).position.Element 1 2 = 24 ∨ 28 ≤ (paddleAt 53 120).position.Element 1 2) ∧
    ((paddleAt 53 120).position.Element 1 2 = 216 ∨
      (paddleAt 53 120).position.Element 1 2 ≤ 212) ∧
    (0 ≤ ((paddleAt 53 120).Update kbW Key.KeyW Key.KeyS).position.Element 1 2
          - ((paddleHeight / 2 : Nat) : ℚ) ∧
      ((paddleAt 53 120).Update kbW Key.KeyW Key.KeyS).position.Element 1 2
          + ((paddleHeight / 2 : Nat) : ℚ) ≤ (screenHeight : ℚ)) :=
  ⟨Or.inr (by rw [paddleAt_y]; norm_num), Or.inr (by rw [paddleAt_y]; norm_num),
    C2_update_keeps_paddle_on_screen (paddleAt 53 120) kbW Key.KeyW Key.KeyS
      (Or.inr (by rw [paddleAt_y]; norm_num)) (Or.inr (by rw [paddleAt_y]; norm_num))⟩

/-- C10: with both the up and the down key held, and the paddle centre at
`24 < y ≤ 216`, the up step and the down step are both taken and cancel:
`Paddle.Update` leaves y unchanged. -/
theorem C10_both_keys_cancel (p : Paddle) (kb : Keyboard) (u d : Key)
    (hu : IsKeyPressed kb u = true) (hd : IsKeyPressed kb d = true)
    (hlo : 24 < p.position.Element 1 2) (hhi : p.position.Element 1 2 ≤ 216) :
    (p.Update kb u d).position.Element 1 2 = p.position.Element 1 2 := by
  have hu' : kb u = true := hu
  have hd' : kb d = true := hd
  rw [Paddle.Update_y]
  have h1 : kb u = true ∧ p.position.Element 1 2 > 24 := ⟨hu', hlo⟩
  rw [if_pos h1]
  have h2 : kb d = true ∧ p.position.Element 1 2 - 4 + 24 < 240 := ⟨hd', by linarith⟩
  rw [if_pos h2]
  ring

/-- Witness of C10: the paddle at the centre height 120 with every key held. -/
theorem C10_both_keys_cancel_witness :
    IsKeyPressed kbAll Key.KeyW = true ∧ IsKeyPressed kbAll Key.KeyS = true ∧
    24 < (paddleAt 53 120).position.Element 1 2 ∧
    (paddleAt 53 120).position.Element 1 2 ≤ 216 ∧
    ((paddleAt 53 120).Update kbAll Key.KeyW Key.KeyS).position.Element 1 2
      = (paddleAt 53 120).position.Element 1 2 :=
  ⟨rfl, rfl, by rw [paddleAt_y]; norm_num, by rw [paddleAt_y]; norm_num,
    C10_both_keys_cancel (paddleAt 53 120) kbAll Key.KeyW Key.KeyS rfl rfl
      (by rw [paddleAt_y]; norm_num) (by rw [paddleAt_y]; norm_num)⟩

/-! ## Ball: the steps of `Ball.Update` one by one -/

theorem wrapInt_of_inRange (n : Int) (hlo : -2 ^ 63 ≤ n) (hhi : n < 2 ^ 63) : wrapInt n = n := by
  unfold wrapInt
  omega

theorem GeoM.Element_Translate_x (g : GeoM) (a b : ℚ) :
    (g.Translate a b).Element 0 2 = g.Element 0 2 + a := rfl

theorem GeoM.Element_Translate_y (g : GeoM) (a b : ℚ) :
    (g.Translate a b).Element 1 2 = g.Element 1 2 + b := rfl

theorem Ball.Reset_x (b : Ball) (rng : Rand) : (b.Reset rng).1.position.Element 0 2 = 160 := by
  simp [Ball.Reset, GeoM.SetElement, GeoM.Element, halfScreenWidth_eq]

theorem Ball.Reset_y (b : Ball) (rng : Rand) : (b.Reset rng).1.position.Element 1 2 = 120 := by
  simp [Ball.Reset, GeoM.SetElement, GeoM.Element, halfScreenHeight_eq]

theorem Ball.Reset_speedX (b : Ball) (rng : Rand) :
    (b.Reset rng).1.speedX = rng.draws rng.next * 2 - 1 := rfl

theorem Ball.Reset_speedY (b : Ball) (rng : Rand) :
    (b.Reset rng).1.speedY = rng.draws (rng.next + 1) * 2 - 1 := rfl

theorem Ball.bounceWalls_position (s : BallCells) :
    (Ball.bounceWalls s).ball.position = s.ball.position := by
  unfold Ball.bounceWalls; split_ifs <;> rfl

theorem Ball.bounceWalls_speedX (s : BallCells) :
    (Ball.bounceWalls s).ball.speedX = s.ball.speedX := by
  unfold Ball.bounceWalls; split_ifs <;> rfl

theorem Ball.bounceWalls_score (s : BallCells) : (Ball.bounceWalls s).score = s.score := by
  unfold Ball.bounceWalls; split_ifs <;> rfl

theorem Ball.bounceWalls_mult (s : BallCells) :
    (Ball.bounceWalls s).speedMultiplier = s.speedMultiplier := by
  unfold Ball.bounceWalls; split_ifs <;> rfl

theorem Ball.bounceWalls_rng (s : BallCells) : (Ball.bounceWalls s).rng = s.rng := by
  unfold Ball.bounceWalls; split_ifs <;> rfl

theorem Ball.bouncePaddle_position (p : Paddle) (s : BallCells) :
    (Ball.bouncePaddle p s).ball.position = s.ball.position := by
  unfold Ball.bouncePaddle; split_ifs <;> rfl

theorem Ball.bouncePaddle_speedY (p : Paddle) (s : BallCells) :
    (Ball.bouncePaddle p s).ball.speedY = s.ball.speedY := by
  unfold Ball.bouncePaddle; split_ifs <;> rfl

theorem Ball.bouncePaddle_score (p : Paddle) (s : BallCells) :
    (Ball.bouncePaddle p s).score = s.score := by
  unfold Ball.bouncePaddle; split_ifs <;> rfl

theorem Ball.bouncePaddle_mult (p : Paddle) (s : BallCells) :
    (Ball.bouncePaddle p s).speedMultiplier = s.speedMultiplier := by
  unfold Ball.bouncePaddle; split_ifs <;> rfl

theorem Ball.bouncePaddle_rng (p : Paddle) (s : BallCells) :
    (Ball.bouncePaddle p s).rng = s.rng := by
  unfold Ball.bouncePaddle; split_ifs <;> rfl

/-- The overlap test only reads the position of the ball. -/
theorem Ball.overlaps_congr {b b' : Ball} (p : Paddle) (h : b'.position = b.position) :
    Ball.overlaps b' p ↔ Ball.overlaps b p := by
  unfold Ball.overlaps; rw [h]

theorem Ball.scoreRight_mult (s : BallCells) :
    (Ball.scoreRight s).speedMultiplier = s.speedMultiplier := by
  unfold Ball.scoreRight; split_ifs <;> rfl

theorem Ball.resetLeft_mult (s : BallCells) :
    (Ball.resetLeft s).speedMultiplier = s.speedMultiplier := by
  unfold Ball.resetLeft; split_ifs <;> rfl

theorem Ball.resetLeft_score (s : BallCells) : (Ball.resetLeft s).score = s.score := by
  unfold Ball.resetLeft; split_ifs <;> rfl

/-- The position the wall, paddle and edge tests of `Ball.Update` read: the one left
by the translation of line 52. -/
theorem Ball.tests_position (b : Ball) (player enemy : Paddle) (score : Int) (m : ℚ)
    (rng : Rand) :
    (Ball.bouncePaddle enemy (Ball.bouncePaddle player (Ball.bounceWalls (Ball.translate
      { ball := b, score := score, speedMultiplier := m, rng := rng })))).ball.position
      = b.position.Translate b.speedX b.speedY := by
  rw [Ball.bouncePaddle_position, Ball.bouncePaddle_position, Ball.bounceWalls_position]
  rfl

/-- `Ball.Update` hands back the multiplier it was given. -/
theorem Ball.Update_mult (b : Ball) (player enemy : Paddle) (score : Int) (m : ℚ) (rng : Rand) :
    (b.Update player enemy score m rng).speedMultiplier = m := by
  unfold Ball.Update Ball.ramp
  simp only [Ball.resetLeft_mult, Ball.scoreRight_mult, Ball.bouncePaddle_mult,
    Ball.bounceWalls_mult]
  rfl

/-- Past the right edge: lines 75-88 score, reset once, skip the left test, and ramp. -/
theorem Ball.edges_right (s : BallCells)
    (h : s.ball.position.Element 0 2 + ((circleRadius / 2 : Nat) : ℚ) > (screenWidth : ℚ)) :
    Ball.ramp (Ball.resetLeft (Ball.scoreRight s)) =
      Ball.ramp { s with score := wrapInt (s.score + 1), ball := (s.ball.Reset s.rng).1,
                         rng := (s.ball.Reset s.rng).2 } := by
  have h1 : Ball.scoreRight s =
      { s with score := wrapInt (s.score + 1), ball := (s.ball.Reset s.rng).1,
               rng := (s.ball.Reset s.rng).2 } := by
    unfold Ball.scoreRight; rw [if_pos h]
  rw [h1]
  unfold Ball.resetLeft
  rw [if_neg]
  simp only [Ball.Reset_x, halfCircle_eq]
  norm_num

/-- Past the left edge: lines 75-88 leave the score alone, reset once, and ramp. -/
theorem Ball.edges_left (s : BallCells)
    (h : s.ball.position.Element 0 2 - ((circleRadius / 2 : Nat) : ℚ) < 0) :
    Ball.ramp (Ball.resetLeft (Ball.scoreRight s)) =
      Ball.ramp { s with ball := (s.ball.Reset s.rng).1, rng := (s.ball.Reset s.rng).2 } := by
  have h1 : Ball.scoreRight s = s := by
    unfold Ball.scoreRight
    rw [if_neg]
    rw [halfCircle_eq] at h
    rw [halfCircle_eq, screenWidth_eq]
    linarith
  rw [h1]
  unfold Ball.resetLeft
  rw [if_pos h]

/-- Between the edges: lines 75-88 only ramp. -/
theorem Ball.edges_none (s : BallCells)
    (hr : ¬ s.ball.position.Element 0 2 + ((circleRadius / 2 : Nat) : ℚ) > (screenWidth : ℚ))
    (hl : ¬ s.ball.position.Element 0 2 - ((circleRadius / 2 : Nat) : ℚ) < 0) :
    Ball.ramp (Ball.resetLeft (Ball.scoreRight s)) = Ball.ramp s := by
  have h1 : Ball.scoreRight s = s := by
    unfold Ball.scoreRight; rw [if_neg hr]
  rw [h1]
  unfold Ball.resetLeft
  rw [if_neg hl]

/-- The score cell as the edge tests find it: untouched by lines 52-72. -/
theorem Ball.tests_score (b : Ball) (player enemy : Paddle) (score : Int) (m : ℚ)
    (rng : Rand) :
    (Ball.bouncePaddle enemy (Ball.bouncePaddle player (Ball.bounceWalls (Ball.translate
      { ball := b, score := score, speedMultiplier := m, rng := rng })))).score = score := by
  rw [Ball.bouncePaddle_score, Ball.bouncePaddle_score, Ball.bounceWalls_score]
  rfl

/-- The generator as the edge tests find it: untouched by lines 52-72. -/
theorem Ball.tests_rng (b : Ball) (player enemy : Paddle) (score : Int) (m : ℚ)
    (rng : Rand) :
    (Ball.bouncePaddle enemy (Ball.bouncePaddle player (Ball.bounceWalls (Ball.translate
      { ball := b, score := score, speedMultiplier := m, rng := rng })))).rng = rng := by
  rw [Ball.bouncePaddle_rng, Ball.bouncePaddle_rng, Ball.bounceWalls_rng]
  rfl

/-- The multiplier as the ramp finds it: untouched by lines 52-72. -/
theorem Ball.tests_mult (b : Ball) (player enemy : Paddle) (score : Int) (m : ℚ)
    (rng : Rand) :
    (Ball.bouncePaddle enemy (Ball.bouncePaddle player (Ball.bounceWalls (Ball.translate
      { ball := b, score := score, speedMultiplier := m, rng := rng })))).speedMultiplier
      = m := by
  rw [Ball.bouncePaddle_mult, Ball.bouncePaddle_mult, Ball.bounceWalls_mult]
  rfl

/-! ## C3, C4: the side exits -/

/-- C3: if after the translation step the ball has `x + circleRadius/2 > screenWidth`,
then after `Ball.Update` the score has been incremented exactly once, `s + 1` in Go
`int` arithmetic (the mathematical `s + 1` for every `int` below the largest one), and
the ball is at `(screenWidth/2, screenHeight/2) = (160, 120)`. -/
theorem C3_right_exit_scores_once_and_centres (b : Ball) (player enemy : Paddle) (s : Int)
    (m : ℚ) (rng : Rand)
    (h : b.position.Element 0 2 + b.speedX + ((circleRadius / 2 : Nat) : ℚ)
          > (screenWidth : ℚ)) :
    (b.Update player enemy s m rng).score = wrapInt (s + 1) ∧
    (-2 ^ 63 ≤ s → s < 2 ^ 63 - 1 → (b.Update player enemy s m rng).score = s + 1) ∧
    (b.Update player enemy s m rng).ball.position.Element 0 2 = 160 ∧
    (b.Update player enemy s m rng).ball.position.Element 1 2 = 120 := by
  have hx : (Ball.bouncePaddle enemy (Ball.bouncePaddle player (Ball.bounceWalls (Ball.translate
      { ball := b, score := s, speedMultiplier := m, rng := rng })))).ball.position.Element 0 2
        + ((circleRadius / 2 : Nat) : ℚ) > (screenWidth : ℚ) := by
    rw [Ball.tests_position, GeoM.Element_Translate_x]; exact h
  have hs : (b.Update player enemy s m rng).score = wrapInt (s + 1) := by
    unfold Ball.Update
    rw [Ball.edges_right _ hx]
    simp only [Ball.ramp, Ball.tests_score]
  refine ⟨hs, ?_, ?_, ?_⟩
  · intro hlo hhi
    rw [hs]
    exact wrapInt_of_inRange (s + 1) (by omega) (by omega)
  · unfold Ball.Update
    rw [Ball.edges_right _ hx]
    simp only [Ball.ramp, Ball.Reset_x]
  · unfold Ball.Update
    rw [Ball.edges_right _ hx]
    simp only [Ball.ramp, Ball.Reset_y]

/-- Witness of C3: a ball at (310, 100) moving right by 5 with score 7. -/
theorem C3_right_exit_scores_once_and_centres_witness :
    (ballAt 310 100 5 0).position.Element 0 2 + (ballAt 310 100 5 0).speedX
        + ((circleRadius / 2 : Nat) : ℚ) > (screenWidth : ℚ) ∧
    ((ballAt 310 100 5 0).Update (paddleAt 53 120) (paddleAt 267 120) 7 1 rngHalf).score
        = wrapInt (7 + 1) ∧
    (-2 ^ 63 ≤ (7 : Int) → (7 : Int) < 2 ^ 63 - 1 →
      ((ballAt 310 100 5 0).Update (paddleAt 53 120) (paddleAt 267 120) 7 1 rngHalf).score
        = 7 + 1) ∧
    ((ballAt 310 100 5 0).Update (paddleAt 53 120) (paddleAt 267 120) 7 1
        rngHalf).ball.position.Element 0 2 = 160 ∧
    ((ballAt 310 100 5 0).Update (paddleAt 53 120) (paddleAt 267 120) 7 1
        rngHalf).ball.position.Element 1 2 = 120 :=
  ⟨by norm_num [ballAt, GeoM.zero, GeoM.Translate, GeoM.Element, circleRadius, screenWidth],
    C3_right_exit_scores_once_and_centres (ballAt 310 100 5 0) (paddleAt 53 120)
      (paddleAt 267 120) 7 1 rngHalf
      (by norm_num [ballAt, GeoM.zero, GeoM.Translate, GeoM.Element, circleRadius, screenWidth])⟩

/-- C4: if after the translation step the ball has `x - circleRadius/2 < 0`, then after
`Ball.Update` the ball is at (160, 120) and the score is the one handed in. -/
theorem C4_left_exit_centres_keeps_score (b : Ball) (player enemy : Paddle) (s : Int)
    (m : ℚ) (rng : Rand)
    (h : b.position.Element 0 2 + b.speedX - ((circleRadius / 2 : Nat) : ℚ) < 0) :
    (b.Update player enemy s m rng).ball.position.Element 0 2 = 160 ∧
    (b.Update player enemy s m rng).ball.position.Element 1 2 = 120 ∧
    (b.Update player enemy s m rng).score = s := by
  have hx : (Ball.bouncePaddle enemy (Ball.bouncePaddle player (Ball.bounceWalls (Ball.translate
      { ball := b, score := s, speedMultiplier := m, rng := rng })))).ball.position.Element 0 2
        - ((circleRadius / 2 : Nat) : ℚ) < 0 := by
    rw [Ball.tests_position, GeoM.Element_Translate_x]; exact h
  unfold Ball.Update
  rw [Ball.edges_left _ hx]
  simp only [Ball.ramp, Ball.Reset_x, Ball.Reset_y, Ball.tests_score, and_self]

/-- Witness of C4: a ball at (10, 100) moving left by 5 with score 7. -/
theorem C4_left_exit_centres_keeps_score_witness :
    (ballAt 10 100 (-5) 0).position.Element 0 2 + (ballAt 10 100 (-5) 0).speedX
        - ((circleRadius / 2 : Nat) : ℚ) < 0 ∧
    ((ballAt 10 100 (-5) 0).Update (paddleAt 53 120) (paddleAt 267 120) 7 1
        rngHalf).ball.position.Element 0 2 = 160 ∧
    ((ballAt 10 100 (-5) 0).Update (paddleAt 53 120) (paddleAt 267 120) 7 1
        rngHalf).ball.position.Element 1 2 = 120 ∧
    ((ballAt 10 100 (-5) 0).Update (paddleAt 53 120) (paddleAt 267 120) 7 1 rngHalf).score
        = 7 :=
  ⟨by norm_num [ballAt, GeoM.zero, GeoM.Translate, GeoM.Element, circleRadius],
    C4_left_exit_centres_keeps_score (ballAt 10 100 (-5) 0) (paddleAt 53 120)
      (paddleAt 267 120) 7 1 rngHalf
      (by norm_num [ballAt, GeoM.zero, GeoM.Translate, GeoM.Element, circleRadius])⟩

/-! ## Ball: speeds after the wall and paddle tests -/

theorem Ball.bouncePaddle_speedX_of_overlap (p : Paddle) (s : BallCells)
    (h : Ball.overlaps s.ball p) : (Ball.bouncePaddle p s).ball.speedX = -s.ball.speedX := by
  unfold Ball.bouncePaddle; rw [if_pos h]

theorem Ball.bouncePaddle_of_not (p : Paddle) (s : BallCells)
    (h : ¬ Ball.overlaps s.ball p) : Ball.bouncePaddle p s = s := by
  unfold Ball.bouncePaddle; rw [if_neg h]

theorem Ball.bounceWalls_speedY_of_wall (s : BallCells)
    (h : s.ball.position.Element 1 2 - ((circleRadius / 2 : Nat) : ℚ) < 0 ∨
      s.ball.position.Element 1 2 + ((circleRadius / 2 : Nat) : ℚ) > (screenHeight : ℚ)) :
    (Ball.bounceWalls s).ball.speedY = -s.ball.speedY := by
  unfold Ball.bounceWalls; rw [if_pos h]

theorem Ball.bounceWalls_of_not (s : BallCells)
    (h : ¬ (s.ball.position.Element 1 2 - ((circleRadius / 2 : Nat) : ℚ) < 0 ∨
      s.ball.position.Element 1 2 + ((circleRadius / 2 : Nat) : ℚ) > (screenHeight : ℚ))) :
    Ball.bounceWalls s = s := by
  unfold Ball.bounceWalls; rw [if_neg h]

/-- After a right exit both speeds are the fresh draws, ramped. -/
theorem Ball.Update_right_speeds (b : Ball) (player enemy : Paddle) (s : Int) (m : ℚ)
    (rng : Rand)
    (h : b.position.Element 0 2 + b.speedX + ((circleRadius / 2 : Nat) : ℚ)
          > (screenWidth : ℚ)) :
    (b.Update player enemy s m rng).ball.speedX = (rng.draws rng.next * 2 - 1) * m ∧
    (b.Update player enemy s m rng).ball.speedY = (rng.draws (rng.next + 1) * 2 - 1) * m := by
  have hx : (Ball.bouncePaddle enemy (Ball.bouncePaddle player (Ball.bounceWalls (Ball.translate
      { ball := b, score := s, speedMultiplier := m, rng := rng })))).ball.position.Element 0 2
        + ((circleRadius / 2 : Nat) : ℚ) > (screenWidth : ℚ) := by
    rw [Ball.tests_position, GeoM.Element_Translate_x]; exact h
  unfold Ball.Update
  rw [Ball.edges_right _ hx]
  simp only [Ball.ramp, Ball.Reset_speedX, Ball.Reset_speedY, Ball.tests_rng, Ball.tests_mult,
    and_self]

/-- After a left exit both speeds are the fresh draws, ramped. -/
theorem Ball.Update_left_speeds (b : Ball) (player enemy : Paddle) (s : Int) (m : ℚ)
    (rng : Rand)
    (h : b.position.Element 0 2 + b.speedX - ((circleRadius / 2 : Nat) : ℚ) < 0) :
    (b.Update player enemy s m rng).ball.speedX = (rng.draws rng.next * 2 - 1) * m ∧
    (b.Update player enemy s m rng).ball.speedY = (rng.draws (rng.next + 1) * 2 - 1) * m := by
  have hx : (Ball.bouncePaddle enemy (Ball.bouncePaddle player (Ball.bounceWalls (Ball.translate
      { ball := b, score := s, speedMultiplier := m, rng := rng })))).ball.position.Element 0 2
        - ((circleRadius / 2 : Nat) : ℚ) < 0 := by
    rw [Ball.tests_position, GeoM.Element_Translate_x]; exact h
  unfold Ball.Update
  rw [Ball.edges_left _ hx]
  simp only [Ball.ramp, Ball.Reset_speedX, Ball.Reset_speedY, Ball.tests_rng, Ball.tests_mult,
    and_self]

/-- Without a side exit, `Ball.Update` is lines 52-72 followed by the ramp. -/
theorem Ball.Update_no_exit (b : Ball) (player enemy : Paddle) (s : Int) (m : ℚ) (rng : Rand)
    (hr : ¬ b.position.Element 0 2 + b.speedX + ((circleRadius / 2 : Nat) : ℚ)
          > (screenWidth : ℚ))
    (hl : ¬ b.position.Element 0 2 + b.speedX - ((circleRadius / 2 : Nat) : ℚ) < 0) :
    b.Update player enemy s m rng =
      Ball.ramp (Ball.bouncePaddle enemy (Ball.bouncePaddle player (Ball.bounceWalls
        (Ball.translate { ball := b, score := s, speedMultiplier := m, rng := rng })))) := by
  unfold Ball.Update
  apply Ball.edges_none
  · rw [Ball.tests_position, GeoM.Element_Translate_x]; exact hr
  · rw [Ball.tests_position, GeoM.Element_Translate_x]; exact hl

/-- Vertical speed after `Ball.Update` when a wall is crossed and no side exit occurs. -/
theorem Ball.Update_wall_speedY (b : Ball) (player enemy : Paddle) (s : Int) (m : ℚ)
    (rng : Rand)
    (hw : b.position.Element 1 2 + b.speedY - ((circleRadius / 2 : Nat) : ℚ) < 0 ∨
      b.position.Element 1 2 + b.speedY + ((circleRadius / 2 : Nat) : ℚ) > (screenHeight : ℚ))
    (hr : ¬ b.position.Element 0 2 + b.speedX + ((circleRadius / 2 : Nat) : ℚ)
          > (screenWidth : ℚ))
    (hl : ¬ b.position.Element 0 2 + b.speedX - ((circleRadius / 2 : Nat) : ℚ) < 0) :
    (b.Update player enemy s m rng).ball.speedY = -b.speedY * m := by
  rw [Ball.Update_no_exit b player enemy s m rng hr hl]
  simp only [Ball.ramp, Ball.bouncePaddle_speedY, Ball.tests_mult]
  rw [Ball.bounceWalls_speedY_of_wall]
  · rfl
  · exact hw

/-! ## C5, C6, C9: bounces and free flight -/

/-- C5: if the translated ball square strictly overlaps the player paddle on both axes,
does not overlap the enemy paddle, and no side exit occurs, then `Ball.Update` negates
the horizontal speed once: the resulting `speedX` is `-(old speedX) * speedMultiplier`. -/
theorem C5_player_overlap_flips_vx (b : Ball) (player enemy : Paddle) (s : Int) (m : ℚ)
    (rng : Rand)
    (hp : Ball.overlaps { b with position := b.position.Translate b.speedX b.speedY } player)
    (he : ¬ Ball.overlaps { b with position := b.position.Translate b.speedX b.speedY } enemy)
    (hr : ¬ b.position.Element 0 2 + b.speedX + ((circleRadius / 2 : Nat) : ℚ)
          > (screenWidth : ℚ))
    (hl : ¬ b.position.Element 0 2 + b.speedX - ((circleRadius / 2 : Nat) : ℚ) < 0) :
    (b.Update player enemy s m rng).ball.speedX = -b.speedX * m := by
  rw [Ball.Update_no_exit b player enemy s m rng hr hl]
  have hpos2 : (Ball.bounceWalls (Ball.translate
      { ball := b, score := s, speedMultiplier := m, rng := rng })).ball.position
        = b.position.Translate b.speedX b.speedY := by
    rw [Ball.bounceWalls_position]; rfl
  have hp' : Ball.overlaps (Ball.bounceWalls (Ball.translate
      { ball := b, score := s, speedMultiplier := m, rng := rng })).ball player :=
    (Ball.overlaps_congr player (by rw [hpos2])).mpr hp
  have he' : ¬ Ball.overlaps (Ball.bouncePaddle player (Ball.bounceWalls (Ball.translate
      { ball := b, score := s, speedMultiplier := m, rng := rng }))).ball enemy := by
    intro h
    exact he ((Ball.overlaps_congr enemy (by rw [Ball.bouncePaddle_position, hpos2])).mp h)
  rw [Ball.bouncePaddle_of_not enemy _ he']
  simp only [Ball.ramp, Ball.bouncePaddle_mult, Ball.bounceWalls_mult]
  rw [Ball.bouncePaddle_speedX_of_overlap player _ hp', Ball.bounceWalls_speedX]
  rfl

theorem ballAt_x (x y vx vy : ℚ) : (ballAt x y vx vy).position.Element 0 2 = x := by
  simp [ballAt, GeoM.zero, GeoM.Translate, GeoM.Element]

theorem ballAt_y (x y vx vy : ℚ) : (ballAt x y vx vy).position.Element 1 2 = y := by
  simp [ballAt, GeoM.zero, GeoM.Translate, GeoM.Element]

/-- The overlap test on a translated ball, with the constants evaluated. -/
theorem Ball.overlaps_translated_iff (b : Ball) (p : Paddle) :
    Ball.overlaps { b with position := b.position.Translate b.speedX b.speedY } p ↔
      (b.position.Element 0 2 + b.speedX - 8 < p.position.Element 0 2 + 4 ∧
        b.position.Element 0 2 + b.speedX + 8 > p.position.Element 0 2 - 4 ∧
        b.position.Element 1 2 + b.speedY - 8 < p.position.Element 1 2 + 24 ∧
        b.position.Element 1 2 + b.speedY + 8 > p.position.Element 1 2 - 24) := by
  unfold Ball.overlaps
  simp only [GeoM.Element_Translate_x, GeoM.Element_Translate_y, halfCircle_eq,
    halfPaddleWidth_eq, halfPaddleHeight_eq]

/-- Witness of C5: the ball of the claim, translated to (57, 120), against the player
paddle at (53, 120) and the enemy paddle at (267, 120). -/
theorem C5_player_overlap_flips_vx_witness :
    Ball.overlaps { ballIntoPlayer with
      position := ballIntoPlayer.position.Translate ballIntoPlayer.speedX
        ballIntoPlayer.speedY } playerHome ∧
    ¬ Ball.overlaps { ballIntoPlayer with
      position := ballIntoPlayer.position.Translate ballIntoPlayer.speedX
        ballIntoPlayer.speedY } enemyHome ∧
    ¬ ballIntoPlayer.position.Element 0 2 + ballIntoPlayer.speedX
        + ((circleRadius / 2 : Nat) : ℚ) > (screenWidth : ℚ) ∧
    ¬ ballIntoPlayer.position.Element 0 2 + ballIntoPlayer.speedX
        - ((circleRadius / 2 : Nat) : ℚ) < 0 ∧
    (ballIntoPlayer.Update playerHome enemyHome 0 1 rngHalf).ball.speedX
      = -ballIntoPlayer.speedX * 1 :=
  have hp : Ball.overlaps { ballIntoPlayer with
      position := ballIntoPlayer.position.Translate ballIntoPlayer.speedX
        ballIntoPlayer.speedY } playerHome := by
    rw [Ball.overlaps_translated_iff]
    simp only [ballIntoPlayer, playerHome, ballAt_x, ballAt_y, paddleAt_x, paddleAt_y]
    norm_num [ballAt]
  have he : ¬ Ball.overlaps { ballIntoPlayer with
      position := ballIntoPlayer.position.Translate ballIntoPlayer.speedX
        ballIntoPlayer.speedY } enemyHome := by
    rw [Ball.overlaps_translated_iff]
    simp only [ballIntoPlayer, enemyHome, ballAt_x, ballAt_y, paddleAt_x, paddleAt_y]
    norm_num [ballAt]
  have hr : ¬ ballIntoPlayer.position.Element 0 2 + ballIntoPlayer.speedX
      + ((circleRadius / 2 : Nat) : ℚ) > (screenWidth : ℚ) := by
    simp only [ballIntoPlayer, ballAt_x, halfCircle_eq, screenWidth_eq]
    norm_num [ballAt]
  have hl : ¬ ballIntoPlayer.position.Element 0 2 + ballIntoPlayer.speedX
      - ((circleRadius / 2 : Nat) : ℚ) < 0 := by
    simp only [ballIntoPlayer, ballAt_x, halfCircle_eq]
    norm_num [ballAt]
  ⟨hp, he, hr, hl,
    C5_player_overlap_flips_vx ballIntoPlayer playerHome enemyHome 0 1 rngHalf hp he hr hl⟩

/-- C6, as stated, fails: a ball whose translated position (313, 7) is above the top
wall and past the right edge has its vertical speed negated and then redrawn by the
reset.  With every draw `1/4` and multiplier 1 it ends at `-1/2`: not
`-(old speedY) * speedMultiplier = 1`, and of the same sign as the `-1` it started with. -/
theorem C6_counterexample :
    (ballCornerExit.position.Element 1 2 + ballCornerExit.speedY
        - ((circleRadius / 2 : Nat) : ℚ) < 0 ∨
      ballCornerExit.position.Element 1 2 + ballCornerExit.speedY
        + ((circleRadius / 2 : Nat) : ℚ) > (screenHeight : ℚ)) ∧
    ballCornerExit.speedY = -1 ∧
    (ballCornerExit.Update playerHome enemyHome 0 1 rngQuarter).ball.speedY = -1 / 2 ∧
    (ballCornerExit.Update playerHome enemyHome 0 1 rngQuarter).ball.speedY
      ≠ -ballCornerExit.speedY * 1 ∧
    ¬ (0 < (ballCornerExit.Update playerHome enemyHome 0 1 rngQuarter).ball.speedY) := by
  have hx : ballCornerExit.position.Element 0 2 + ballCornerExit.speedX
      + ((circleRadius / 2 : Nat) : ℚ) > (screenWidth : ℚ) := by
    simp only [ballCornerExit, ballAt_x, halfCircle_eq, screenWidth_eq]
    norm_num [ballAt]
  have hv : (ballCornerExit.Update playerHome enemyHome 0 1 rngQuarter).ball.speedY
      = -1 / 2 := by
    rw [(Ball.Update_right_speeds ballCornerExit playerHome enemyHome 0 1 rngQuarter hx).2]
    norm_num [rngQuarter]
  have hy : ballCornerExit.speedY = -1 := rfl
  refine ⟨Or.inl ?_, hy, hv, ?_, ?_⟩
  · simp only [ballCornerExit, ballAt_y, halfCircle_eq]
    norm_num [ballAt]
  · rw [hv, hy]; norm_num
  · rw [hv]; norm_num

/-- C6, amended: in every tick in which the translated ball has `y - circleRadius/2 < 0`
or `y + circleRadius/2 > screenHeight` and no side exit occurs, `Ball.Update` negates the
vertical speed exactly once: the resulting `speedY` is `-(old speedY) * speedMultiplier`,
of the opposite sign to the old one when `speedMultiplier ≥ 1`. -/
theorem C6_wall_flips_vy_without_exit (b : Ball) (player enemy : Paddle) (s : Int) (m : ℚ)
    (rng : Rand)
    (hw : b.position.Element 1 2 + b.speedY - ((circleRadius / 2 : Nat) : ℚ) < 0 ∨
      b.position.Element 1 2 + b.speedY + ((circleRadius / 2 : Nat) : ℚ) > (screenHeight : ℚ))
    (hr : ¬ b.position.Element 0 2 + b.speedX + ((circleRadius / 2 : Nat) : ℚ)
          > (screenWidth : ℚ))
    (hl : ¬ b.position.Element 0 2 + b.speedX - ((circleRadius / 2 : Nat) : ℚ) < 0) :
    (b.Update player enemy s m rng).ball.speedY = -b.speedY * m ∧
    (1 ≤ m → (0 < b.speedY → (b.Update player enemy s m rng).ball.speedY < 0) ∧
      (b.speedY < 0 → 0 < (b.Update player enemy s m rng).ball.speedY)) := by
  have h := Ball.Update_wall_speedY b player enemy s m rng hw hr hl
  refine ⟨h, fun hm => ⟨fun hpos => ?_, fun hneg => ?_⟩⟩
  · rw [h]; nlinarith
  · rw [h]; nlinarith

/-- Witness of C6 (amended): a ball crossing the top wall in mid-field, multiplier 1. -/
theorem C6_wall_flips_vy_without_exit_witness :
    (ballTopWall.position.Element 1 2 + ballTopWall.speedY
        - ((circleRadius / 2 : Nat) : ℚ) < 0 ∨
      ballTopWall.position.Element 1 2 + ballTopWall.speedY
        + ((circleRadius / 2 : Nat) : ℚ) > (screenHeight : ℚ)) ∧
    ¬ ballTopWall.position.Element 0 2 + ballTopWall.speedX
        + ((circleRadius / 2 : Nat) : ℚ) > (screenWidth : ℚ) ∧
    ¬ ballTopWall.position.Element 0 2 + ballTopWall.speedX
        - ((circleRadius / 2 : Nat) : ℚ) < 0 ∧
    ((ballTopWall.Update playerHome enemyHome 0 1 rngHalf).ball.speedY
        = -ballTopWall.speedY * 1 ∧
      ((1 : ℚ) ≤ 1 →
        (0 < ballTopWall.speedY →
          (ballTopWall.Update playerHome enemyHome 0 1 rngHalf).ball.speedY < 0) ∧
        (ballTopWall.speedY < 0 →
          0 < (ballTopWall.Update playerHome enemyHome 0 1 rngHalf).ball.speedY))) :=
  have hw : ballTopWall.position.Element 1 2 + ballTopWall.speedY
        - ((circleRadius / 2 : Nat) : ℚ) < 0 ∨
      ballTopWall.position.Element 1 2 + ballTopWall.speedY
        + ((circleRadius / 2 : Nat) : ℚ) > (screenHeight : ℚ) := by
    left
    simp only [ballTopWall, ballAt_y, halfCircle_eq]
    norm_num [ballAt]
  have hr : ¬ ballTopWall.position.Element 0 2 + ballTopWall.speedX
      + ((circleRadius / 2 : Nat) : ℚ) > (screenWidth : ℚ) := by
    simp only [ballTopWall, ballAt_x, halfCircle_eq, screenWidth_eq]
    norm_num [ballAt]
  have hl : ¬ ballTopWall.position.Element 0 2 + ballTopWall.speedX
      - ((circleRadius / 2 : Nat) : ℚ) < 0 := by
    simp only [ballTopWall, ballAt_x, halfCircle_eq]
    norm_num [ballAt]
  ⟨hw, hr, hl,
    C6_wall_flips_vy_without_exit ballTopWall playerHome enemyHome 0 1 rngHalf hw hr hl⟩

/-- C9: when the translated position triggers no wall bounce, no paddle overlap and no
side exit, `Ball.Update` yields the position `(x + vx, y + vy)`, the speeds
`(vx * m, vy * m)` and the score it was handed. -/
theorem C9_free_flight (b : Ball) (player enemy : Paddle) (s : Int) (m : ℚ) (rng : Rand)
    (hw : ¬ (b.position.Element 1 2 + b.speedY - ((circleRadius / 2 : Nat) : ℚ) < 0 ∨
      b.position.Element 1 2 + b.speedY + ((circleRadius / 2 : Nat) : ℚ)
        > (screenHeight : ℚ)))
    (hp : ¬ Ball.overlaps { b with position := b.position.Translate b.speedX b.speedY } player)
    (he : ¬ Ball.overlaps { b with position := b.position.Translate b.speedX b.speedY } enemy)
    (hr : ¬ b.position.Element 0 2 + b.speedX + ((circleRadius / 2 : Nat) : ℚ)
          > (screenWidth : ℚ))
    (hl : ¬ b.position.Element 0 2 + b.speedX - ((circleRadius / 2 : Nat) : ℚ) < 0) :
    (b.Update player enemy s m rng).ball.position.Element 0 2
        = b.position.Element 0 2 + b.speedX ∧
    (b.Update player enemy s m rng).ball.position.Element 1 2
        = b.position.Element 1 2 + b.speedY ∧
    (b.Update player enemy s m rng).ball.speedX = b.speedX * m ∧
    (b.Update player enemy s m rng).ball.speedY = b.speedY * m ∧
    (b.Update player enemy s m rng).score = s := by
  rw [Ball.Update_no_exit b player enemy s m rng hr hl]
  have h1 : Ball.bounceWalls (Ball.translate
      { ball := b, score := s, speedMultiplier := m, rng := rng })
      = Ball.translate { ball := b, score := s, speedMultiplier := m, rng := rng } :=
    Ball.bounceWalls_of_not _ hw
  have hp' : ¬ Ball.overlaps (Ball.translate
      { ball := b, score := s, speedMultiplier := m, rng := rng }).ball player :=
    fun h => hp ((Ball.overlaps_congr player rfl).mp h)
  have he' : ¬ Ball.overlaps (Ball.translate
      { ball := b, score := s, speedMultiplier := m, rng := rng }).ball enemy :=
    fun h => he ((Ball.overlaps_congr enemy rfl).mp h)
  rw [h1, Ball.bouncePaddle_of_not player _ hp', Ball.bouncePaddle_of_not enemy _ he']
  exact ⟨rfl, rfl, rfl, rfl, rfl⟩

/-- Witness of C9: a ball leaving the centre with speed (1, 1), multiplier 3/2. -/
theorem C9_free_flight_witness :
    ¬ (ballFree.position.Element 1 2 + ballFree.speedY - ((circleRadius / 2 : Nat) : ℚ) < 0 ∨
      ballFree.position.Element 1 2 + ballFree.speedY + ((circleRadius / 2 : Nat) : ℚ)
        > (screenHeight : ℚ)) ∧
    ¬ Ball.overlaps { ballFree with
      position := ballFree.position.Translate ballFree.speedX ballFree.speedY } playerHome ∧
    ¬ Ball.overlaps { ballFree with
      position := ballFree.position.Translate ballFree.speedX ballFree.speedY } enemyHome ∧
    ¬ ballFree.position.Element 0 2 + ballFree.speedX + ((circleRadius / 2 : Nat) : ℚ)
        > (screenWidth : ℚ) ∧
    ¬ ballFree.position.Element 0 2 + ballFree.speedX - ((circleRadius / 2 : Nat) : ℚ) < 0 ∧
    ((ballFree.Update playerHome enemyHome 5 (3 / 2) rngHalf).ball.position.Element 0 2
        = ballFree.position.Element 0 2 + ballFree.speedX ∧
      (ballFree.Update playerHome enemyHome 5 (3 / 2) rngHalf).ball.position.Element 1 2
        = ballFree.position.Element 1 2 + ballFree.speedY ∧
      (ballFree.Update playerHome enemyHome 5 (3 / 2) rngHalf).ball.speedX
        = ballFree.speedX * (3 / 2) ∧
      (ballFree.Update playerHome enemyHome 5 (3 / 2) rngHalf).ball.speedY
        = ballFree.speedY * (3 / 2) ∧
      (ballFree.Update playerHome enemyHome 5 (3 / 2) rngHalf).score = 5) :=
  have hw : ¬ (ballFree.position.Element 1 2 + ballFree.speedY
        - ((circleRadius / 2 : Nat) : ℚ) < 0 ∨
      ballFree.position.Element 1 2 + ballFree.speedY + ((circleRadius / 2 : Nat) : ℚ)
        > (screenHeight : ℚ)) := by
    simp only [ballFree, ballAt_y, halfCircle_eq, screenHeight_eq]
    norm_num [ballAt]
  have hp : ¬ Ball.overlaps { ballFree with
      position := ballFree.position.Translate ballFree.speedX ballFree.speedY } playerHome := by
    rw [Ball.overlaps_translated_iff]
    simp only [ballFree, playerHome, ballAt_x, ballAt_y, paddleAt_x, paddleAt_y]
    norm_num [ballAt]
  have he : ¬ Ball.overlaps { ballFree with
      position := ballFree.position.Translate ballFree.speedX ballFree.speedY } enemyHome := by
    rw [Ball.overlaps_translated_iff]
    simp only [ballFree, enemyHome, ballAt_x, ballAt_y, paddleAt_x, paddleAt_y]
    norm_num [ballAt]
  have hr : ¬ ballFree.position.Element 0 2 + ballFree.speedX
      + ((circleRadius / 2 : Nat) : ℚ) > (screenWidth : ℚ) := by
    simp only [ballFree, ballAt_x, halfCircle_eq, screenWidth_eq]
    norm_num [ballAt]
  have hl : ¬ ballFree.position.Element 0 2 + ballFree.speedX
      - ((circleRadius / 2 : Nat) : ℚ) < 0 := by
    simp only [ballFree, ballAt_x, halfCircle_eq]
    norm_num [ballAt]
  ⟨hw, hp, he, hr, hl,
    C9_free_flight ballFree playerHome enemyHome 5 (3 / 2) rngHalf hw hp he hr hl⟩

/-! ## C7, C8: the multiplier and the reset -/

theorem Game.Update_speedMultiplier (g : Game) (kb : Keyboard) (rng : Rand) :
    (g.Update kb rng).game.speedMultiplier = g.speedMultiplier + speedIncrease := by
  simp only [Game.Update, Ball.Update_mult]

theorem Game.run_mult (g : Game) (rng : Rand) (kbs : List Keyboard) :
    (Game.run g rng kbs).1.speedMultiplier
      = g.speedMultiplier + (kbs.length : ℚ) * speedIncrease := by
  induction kbs generalizing g rng with
  | nil => simp [Game.run]
  | cons kb kbs ih =>
    simp only [Game.run, List.length_cons]
    rw [ih, Game.Update_speedMultiplier]
    push_cast
    ring

/-- C7: starting from the game built by `main` (multiplier 1), after `N` calls of
`Game.Update`, whatever the keyboard snapshots and the random draws, the multiplier is
`1 + N * speedIncrease` in exact arithmetic, with `speedIncrease = 1/100000`. -/
theorem C7_multiplier_after_N_ticks (rng0 rng : Rand) (kbs : List Keyboard) :
    (Game.run (main rng0) rng kbs).1.speedMultiplier
      = 1 + (kbs.length : ℚ) * speedIncrease ∧
    speedIncrease = 1 / 100000 := by
  refine ⟨?_, rfl⟩
  rw [Game.run_mult]
  rfl

/-- C8: for every ball and every generator whose next two draws `r1`, `r2` lie in
`[0, 1)`, `Ball.Reset` puts the ball at the centre (160, 120) and sets
`speedX = 2 * r1 - 1`, `speedY = 2 * r2 - 1`, each within `[-1, 1]`. -/
theorem C8_reset_centres_and_redraws (b : Ball) (rng : Rand)
    (h1 : 0 ≤ rng.draws rng.next ∧ rng.draws rng.next < 1)
    (h2 : 0 ≤ rng.draws (rng.next + 1) ∧ rng.draws (rng.next + 1) < 1) :
    (b.Reset rng).1.position.Element 0 2 = 160 ∧
    (b.Reset rng).1.position.Element 1 2 = 120 ∧
    (b.Reset rng).1.speedX = 2 * rng.draws rng.next - 1 ∧
    (b.Reset rng).1.speedY = 2 * rng.draws (rng.next + 1) - 1 ∧
    (-1 ≤ (b.Reset rng).1.speedX ∧ (b.Reset rng).1.speedX ≤ 1) ∧
    (-1 ≤ (b.Reset rng).1.speedY ∧ (b.Reset rng).1.speedY ≤ 1) := by
  rw [Ball.Reset_x, Ball.Reset_y, Ball.Reset_speedX, Ball.Reset_speedY]
  refine ⟨rfl, rfl, by ring, by ring, ⟨?_, ?_⟩, ⟨?_, ?_⟩⟩ <;> linarith [h1.1, h1.2, h2.1, h2.2]

/-- Witness of C8: the corner ball reset with every draw equal to `1/4`. -/
theorem C8_reset_centres_and_redraws_witness :
    (0 ≤ rngQuarter.draws rngQuarter.next ∧ rngQuarter.draws rngQuarter.next < 1) ∧
    (0 ≤ rngQuarter.draws (rngQuarter.next + 1) ∧ rngQuarter.draws (rngQuarter.next + 1) < 1) ∧
    ((ballCornerExit.Reset rngQuarter).1.position.Element 0 2 = 160 ∧
      (ballCornerExit.Reset rngQuarter).1.position.Element 1 2 = 120 ∧
      (ballCornerExit.Reset rngQuarter).1.speedX = 2 * rngQuarter.draws rngQuarter.next - 1 ∧
      (ballCornerExit.Reset rngQuarter).1.speedY
        = 2 * rngQuarter.draws (rngQuarter.next + 1) - 1 ∧
      (-1 ≤ (ballCornerExit.Reset rngQuarter).1.speedX ∧
        (ballCornerExit.Reset rngQuarter).1.speedX ≤ 1) ∧
      (-1 ≤ (ballCornerExit.Reset rngQuarter).1.speedY ∧
        (ballCornerExit.Reset rngQuarter).1.speedY ≤ 1)) :=
  ⟨by norm_num [rngQuarter], by norm_num [rngQuarter],
    C8_reset_centres_and_redraws ballCornerExit rngQuarter (by norm_num [rngQuarter])
      (by norm_num [rngQuarter])⟩

/-! ## C11, C19: the two paddle tests together, and over two ticks -/

/-- Horizontal speed after `Ball.Update` without a side exit: one sign change per
paddle test that holds, then the ramp. -/
theorem Ball.Update_no_exit_speedX (b : Ball) (player enemy : Paddle) (s : Int) (m : ℚ)
    (rng : Rand)
    (hr : ¬ b.position.Element 0 2 + b.speedX + ((circleRadius / 2 : Nat) : ℚ)
          > (screenWidth : ℚ))
    (hl : ¬ b.position.Element 0 2 + b.speedX - ((circleRadius / 2 : Nat) : ℚ) < 0) :
    (b.Update player enemy s m rng).ball.speedX =
      (if Ball.overlaps { b with position := b.position.Translate b.speedX b.speedY } enemy
        then -(if Ball.overlaps
            { b with position := b.position.Translate b.speedX b.speedY } player
          then -b.speedX else b.speedX)
        else (if Ball.overlaps
            { b with position := b.position.Translate b.speedX b.speedY } player
          then -b.speedX else b.speedX)) * m := by
  rw [Ball.Update_no_exit b player enemy s m rng hr hl]
  have hpos2 : (Ball.bounceWalls (Ball.translate
      { ball := b, score := s, speedMultiplier := m, rng := rng })).ball.position
        = b.position.Translate b.speedX b.speedY := by
    rw [Ball.bounceWalls_position]; rfl
  have hP : Ball.overlaps (Ball.bounceWalls (Ball.translate
      { ball := b, score := s, speedMultiplier := m, rng := rng })).ball player ↔
      Ball.overlaps { b with position := b.position.Translate b.speedX b.speedY } player :=
    Ball.overlaps_congr player (by rw [hpos2])
  have hE : Ball.overlaps (Ball.bouncePaddle player (Ball.bounceWalls (Ball.translate
      { ball := b, score := s, speedMultiplier := m, rng := rng }))).ball enemy ↔
      Ball.overlaps { b with position := b.position.Translate b.speedX b.speedY } enemy :=
    Ball.overlaps_congr enemy (by rw [Ball.bouncePaddle_position, hpos2])
  have h1 : (Ball.bouncePaddle player (Ball.bounceWalls (Ball.translate
      { ball := b, score := s, speedMultiplier := m, rng := rng }))).ball.speedX
      = (if Ball.overlaps
            { b with position := b.position.Translate b.speedX b.speedY } player
          then -b.speedX else b.speedX) := by
    by_cases hp : Ball.overlaps
        { b with position := b.position.Translate b.speedX b.speedY } player
    · rw [if_pos hp, Ball.bouncePaddle_speedX_of_overlap player _ (hP.mpr hp),
        Ball.bounceWalls_speedX]
      rfl
    · rw [if_neg hp, Ball.bouncePaddle_of_not player _ (fun h => hp (hP.mp h)),
        Ball.bounceWalls_speedX]
      rfl
  simp only [Ball.ramp, Ball.bouncePaddle_mult, Ball.bounceWalls_mult]
  by_cases he : Ball.overlaps
      { b with position := b.position.Translate b.speedX b.speedY } enemy
  · rw [if_pos he, Ball.bouncePaddle_speedX_of_overlap enemy _ (hE.mpr he), h1]
    rfl
  · rw [if_neg he, Ball.bouncePaddle_of_not enemy _ (fun h => he (hE.mp h)), h1]
    rfl

/-- C11: if the translated ball overlaps both the player and the enemy rectangle in
the same tick and no side exit occurs, the two negations of lines 64 and 71 cancel:
the resulting `speedX` is `(old speedX) * speedMultiplier`. -/
theorem C11_double_overlap_is_no_op (b : Ball) (player enemy : Paddle) (s : Int) (m : ℚ)
    (rng : Rand)
    (hp : Ball.overlaps { b with position := b.position.Translate b.speedX b.speedY } player)
    (he : Ball.overlaps { b with position := b.position.Translate b.speedX b.speedY } enemy)
    (hr : ¬ b.position.Element 0 2 + b.speedX + ((circleRadius / 2 : Nat) : ℚ)
          > (screenWidth : ℚ))
    (hl : ¬ b.position.Element 0 2 + b.speedX - ((circleRadius / 2 : Nat) : ℚ) < 0) :
    (b.Update player enemy s m rng).ball.speedX = b.speedX * m := by
  rw [Ball.Update_no_exit_speedX b player enemy s m rng hr hl, if_pos he, if_pos hp, neg_neg]

/-- Witness of C11: two paddles ten apart, at (100, 120) and (110, 120), and a ball
translated to (105, 120), which lies on both. -/
theorem C11_double_overlap_is_no_op_witness :
    Ball.overlaps { ballOnTwins with
      position := ballOnTwins.position.Translate ballOnTwins.speedX
        ballOnTwins.speedY } paddleTwinLeft ∧
    Ball.overlaps { ballOnTwins with
      position := ballOnTwins.position.Translate ballOnTwins.speedX
        ballOnTwins.speedY } paddleTwinRight ∧
    ¬ ballOnTwins.position.Element 0 2 + ballOnTwins.speedX
        + ((circleRadius / 2 : Nat) : ℚ) > (screenWidth : ℚ) ∧
    ¬ ballOnTwins.position.Element 0 2 + ballOnTwins.speedX
        - ((circleRadius / 2 : Nat) : ℚ) < 0 ∧
    (ballOnTwins.Update paddleTwinLeft paddleTwinRight 0 2 rngHalf).ball.speedX
      = ballOnTwins.speedX * 2 :=
  have hp : Ball.overlaps { ballOnTwins with
      position := ballOnTwins.position.Translate ballOnTwins.speedX
        ballOnTwins.speedY } paddleTwinLeft := by
    rw [Ball.overlaps_translated_iff]
    simp only [ballOnTwins, paddleTwinLeft, ballAt_x, ballAt_y, paddleAt_x, paddleAt_y]
    norm_num [ballAt]
  have he : Ball.overlaps { ballOnTwins with
      position := ballOnTwins.position.Translate ballOnTwins.speedX
        ballOnTwins.speedY } paddleTwinRight := by
    rw [Ball.overlaps_translated_iff]
    simp only [ballOnTwins, paddleTwinRight, ballAt_x, ballAt_y, paddleAt_x, paddleAt_y]
    norm_num [ballAt]
  have hr : ¬ ballOnTwins.position.Element 0 2 + ballOnTwins.speedX
      + ((circleRadius / 2 : Nat) : ℚ) > (screenWidth : ℚ) := by
    simp only [ballOnTwins, ballAt_x, halfCircle_eq, screenWidth_eq]
    norm_num [ballAt]
  have hl : ¬ ballOnTwins.position.Element 0 2 + ballOnTwins.speedX
      - ((circleRadius / 2 : Nat) : ℚ) < 0 := by
    simp only [ballOnTwins, ballAt_x, halfCircle_eq]
    norm_num [ballAt]
  ⟨hp, he, hr, hl,
    C11_double_overlap_is_no_op ballOnTwins paddleTwinLeft paddleTwinRight 0 2 rngHalf
      hp he hr hl⟩

/-- Position after `Ball.Update` without a side exit: the translated one. -/
theorem Ball.Update_no_exit_position (b : Ball) (player enemy : Paddle) (s : Int) (m : ℚ)
    (rng : Rand)
    (hr : ¬ b.position.Element 0 2 + b.speedX + ((circleRadius / 2 : Nat) : ℚ)
          > (screenWidth : ℚ))
    (hl : ¬ b.position.Element 0 2 + b.speedX - ((circleRadius / 2 : Nat) : ℚ) < 0) :
    (b.Update player enemy s m rng).ball.position = b.position.Translate b.speedX b.speedY := by
  rw [Ball.Update_no_exit b player enemy s m rng hr hl]
  simp only [Ball.ramp]
  exact Ball.tests_position b player enemy s m rng

/-- Vertical speed after `Ball.Update` without a side exit: one sign change if the
wall test holds, then the ramp. -/
theorem Ball.Update_no_exit_speedY (b : Ball) (player enemy : Paddle) (s : Int) (m : ℚ)
    (rng : Rand)
    (hr : ¬ b.position.Element 0 2 + b.speedX + ((circleRadius / 2 : Nat) : ℚ)
          > (screenWidth : ℚ))
    (hl : ¬ b.position.Element 0 2 + b.speedX - ((circleRadius / 2 : Nat) : ℚ) < 0) :
    (b.Update player enemy s m rng).ball.speedY =
      (if b.position.Element 1 2 + b.speedY - ((circleRadius / 2 : Nat) : ℚ) < 0 ∨
          b.position.Element 1 2 + b.speedY + ((circleRadius / 2 : Nat) : ℚ)
            > (screenHeight : ℚ)
        then -b.speedY else b.speedY) * m := by
  by_cases hw : b.position.Element 1 2 + b.speedY - ((circleRadius / 2 : Nat) : ℚ) < 0 ∨
      b.position.Element 1 2 + b.speedY + ((circleRadius / 2 : Nat) : ℚ) > (screenHeight : ℚ)
  · rw [if_pos hw]
    exact Ball.Update_wall_speedY b player enemy s m rng hw hr hl
  · rw [if_neg hw, Ball.Update_no_exit b player enemy s m rng hr hl]
    simp only [Ball.ramp, Ball.bouncePaddle_speedY, Ball.tests_mult]
    have hw' : ¬ ((Ball.translate
          { ball := b, score := s, speedMultiplier := m, rng := rng }).ball.position.Element 1 2
            - ((circleRadius / 2 : Nat) : ℚ) < 0 ∨
        (Ball.translate
          { ball := b, score := s, speedMultiplier := m, rng := rng }).ball.position.Element 1 2
            + ((circleRadius / 2 : Nat) : ℚ) > (screenHeight : ℚ)) := hw
    rw [Ball.bounceWalls_of_not
      (Ball.translate { ball := b, score := s, speedMultiplier := m, rng := rng }) hw']
    rfl

/-- Score after `Ball.Update` without a side exit: the one handed in. -/
theorem Ball.Update_no_exit_score (b : Ball) (player enemy : Paddle) (s : Int) (m : ℚ)
    (rng : Rand)
    (hr : ¬ b.position.Element 0 2 + b.speedX + ((circleRadius / 2 : Nat) : ℚ)
          > (screenWidth : ℚ))
    (hl : ¬ b.position.Element 0 2 + b.speedX - ((circleRadius / 2 : Nat) : ℚ) < 0) :
    (b.Update player enemy s m rng).score = s := by
  rw [Ball.Update_no_exit b player enemy s m rng hr hl]
  simp only [Ball.ramp]
  exact Ball.tests_score b player enemy s m rng

/-- Generator after `Ball.Update` without a side exit: untouched. -/
theorem Ball.Update_no_exit_rng (b : Ball) (player enemy : Paddle) (s : Int) (m : ℚ)
    (rng : Rand)
    (hr : ¬ b.position.Element 0 2 + b.speedX + ((circleRadius / 2 : Nat) : ℚ)
          > (screenWidth : ℚ))
    (hl : ¬ b.position.Element 0 2 + b.speedX - ((circleRadius / 2 : Nat) : ℚ) < 0) :
    (b.Update player enemy s m rng).rng = rng := by
  rw [Ball.Update_no_exit b player enemy s m rng hr hl]
  simp only [Ball.ramp]
  exact Ball.tests_rng b player enemy s m rng

/-- The overlap test on a ball as it stands, with the constants evaluated. -/
theorem Ball.overlaps_iff (b : Ball) (p : Paddle) :
    Ball.overlaps b p ↔
      (b.position.Element 0 2 - 8 < p.position.Element 0 2 + 4 ∧
        b.position.Element 0 2 + 8 > p.position.Element 0 2 - 4 ∧
        b.position.Element 1 2 - 8 < p.position.Element 1 2 + 24 ∧
        b.position.Element 1 2 + 8 > p.position.Element 1 2 - 24) := by
  unfold Ball.overlaps
  simp only [halfCircle_eq, halfPaddleWidth_eq, halfPaddleHeight_eq]

/-- C19: the paddle bounce has no debounce across ticks.  The ball at (53, 100) with
speed (1/2, 0), against the player paddle at (53, 120) with multiplier 1, overlaps the
paddle after the translation of each of two consecutive ticks; `Ball.Update` negates
`speedX` in both (1/2 to -1/2, then -1/2 to 1/2), and after the second tick the ball is
back at (53, 100), inside the paddle. -/
theorem C19_paddle_bounce_has_no_debounce :
    Ball.overlaps { ballInPlayer with
      position := ballInPlayer.position.Translate ballInPlayer.speedX
        ballInPlayer.speedY } playerHome ∧
    ballInPlayer.speedX = 1 / 2 ∧
    debounceTick1.ball.speedX = -(1 / 2) ∧
    Ball.overlaps { debounceTick1.ball with
      position := debounceTick1.ball.position.Translate debounceTick1.ball.speedX
        debounceTick1.ball.speedY } playerHome ∧
    debounceTick2.ball.speedX = 1 / 2 ∧
    debounceTick2.ball.position.Element 0 2 = 53 ∧
    debounceTick2.ball.position.Element 1 2 = 100 ∧
    Ball.overlaps debounceTick2.ball playerHome := by
  -- first tick
  have hx0 : ballInPlayer.position.Element 0 2 = 53 := ballAt_x _ _ _ _
  have hy0 : ballInPlayer.position.Element 1 2 = 100 := ballAt_y _ _ _ _
  have hvx0 : ballInPlayer.speedX = 1 / 2 := rfl
  have hvy0 : ballInPlayer.speedY = 0 := rfl
  have hr0 : ¬ ballInPlayer.position.Element 0 2 + ballInPlayer.speedX
      + ((circleRadius / 2 : Nat) : ℚ) > (screenWidth : ℚ) := by
    rw [hx0, hvx0, halfCircle_eq, screenWidth_eq]; norm_num
  have hl0 : ¬ ballInPlayer.position.Element 0 2 + ballInPlayer.speedX
      - ((circleRadius / 2 : Nat) : ℚ) < 0 := by
    rw [hx0, hvx0, halfCircle_eq]; norm_num
  have hp0 : Ball.overlaps { ballInPlayer with
      position := ballInPlayer.position.Translate ballInPlayer.speedX
        ballInPlayer.speedY } playerHome := by
    rw [Ball.overlaps_translated_iff, hx0, hy0, hvx0, hvy0]
    simp only [playerHome, paddleAt_x, paddleAt_y]
    norm_num
  have he0 : ¬ Ball.overlaps { ballInPlayer with
      position := ballInPlayer.position.Translate ballInPlayer.speedX
        ballInPlayer.speedY } enemyHome := by
    rw [Ball.overlaps_translated_iff, hx0, hy0, hvx0, hvy0]
    simp only [enemyHome, paddleAt_x, paddleAt_y]
    norm_num
  have hvx1 : debounceTick1.ball.speedX = -(1 / 2) := by
    unfold debounceTick1
    rw [Ball.Update_no_exit_speedX _ _ _ _ _ _ hr0 hl0, if_neg he0, if_pos hp0, hvx0]
    norm_num
  have hvy1 : debounceTick1.ball.speedY = 0 := by
    unfold debounceTick1
    rw [Ball.Update_no_exit_speedY _ _ _ _ _ _ hr0 hl0, hvy0]
    split_ifs <;> norm_num
  have hpos1 : debounceTick1.ball.position
      = ballInPlayer.position.Translate ballInPlayer.speedX ballInPlayer.speedY := by
    unfold debounceTick1
    exact Ball.Update_no_exit_position _ _ _ _ _ _ hr0 hl0
  have hx1 : debounceTick1.ball.position.Element 0 2 = 107 / 2 := by
    rw [hpos1, GeoM.Element_Translate_x, hx0, hvx0]; norm_num
  have hy1 : debounceTick1.ball.position.Element 1 2 = 100 := by
    rw [hpos1, GeoM.Element_Translate_y, hy0, hvy0]; norm_num
  -- second tick
  have hr1 : ¬ debounceTick1.ball.position.Element 0 2 + debounceTick1.ball.speedX
      + ((circleRadius / 2 : Nat) : ℚ) > (screenWidth : ℚ) := by
    rw [hx1, hvx1, halfCircle_eq, screenWidth_eq]; norm_num
  have hl1 : ¬ debounceTick1.ball.position.Element 0 2 + debounceTick1.ball.speedX
      - ((circleRadius / 2 : Nat) : ℚ) < 0 := by
    rw [hx1, hvx1, halfCircle_eq]; norm_num
  have hp1 : Ball.overlaps { debounceTick1.ball with
      position := debounceTick1.ball.position.Translate debounceTick1.ball.speedX
        debounceTick1.ball.speedY } playerHome := by
    rw [Ball.overlaps_translated_iff, hx1, hy1, hvx1, hvy1]
    simp only [playerHome, paddleAt_x, paddleAt_y]
    norm_num
  have he1 : ¬ Ball.overlaps { debounceTick1.ball with
      position := debounceTick1.ball.position.Translate debounceTick1.ball.speedX
        debounceTick1.ball.speedY } enemyHome := by
    rw [Ball.overlaps_translated_iff, hx1, hy1, hvx1, hvy1]
    simp only [enemyHome, paddleAt_x, paddleAt_y]
    norm_num
  have hvx2 : debounceTick2.ball.speedX = 1 / 2 := by
    unfold debounceTick2
    rw [Ball.Update_no_exit_speedX _ _ _ _ _ _ hr1 hl1, if_neg he1, if_pos hp1, hvx1]
    norm_num
  have hpos2 : debounceTick2.ball.position
      = debounceTick1.ball.position.Translate debounceTick1.ball.speedX
          debounceTick1.ball.speedY := by
    unfold debounceTick2
    exact Ball.Update_no_exit_position _ _ _ _ _ _ hr1 hl1
  have hx2 : debounceTick2.ball.position.Element 0 2 = 53 := by
    rw [hpos2, GeoM.Element_Translate_x, hx1, hvx1]; norm_num
  have hy2 : debounceTick2.ball.position.Element 1 2 = 100 := by
    rw [hpos2, GeoM.Element_Translate_y, hy1, hvy1]; norm_num
  refine ⟨hp0, hvx0, hvx1, hp1, hvx2, hx2, hy2, ?_⟩
  rw [Ball.overlaps_iff, hx2, hy2]
  simp only [playerHome, paddleAt_x, paddleAt_y]
  norm_num

/-! ## C12, C14, C16: what the paddle update and the layout leave alone -/

/-- The position matrix after `Paddle.Update` differs from the one before at most in
`ty`. -/
theorem Paddle.Update_frame (p : Paddle) (kb : Keyboard) (u d : Key) :
    (p.Update kb u d).position.a_1 = p.position.a_1 ∧
    (p.Update kb u d).position.b = p.position.b ∧
    (p.Update kb u d).position.c = p.position.c ∧
    (p.Update kb u d).position.d_1 = p.position.d_1 ∧
    (p.Update kb u d).position.tx = p.position.tx := by
  unfold Paddle.Update
  dsimp only
  split <;> split <;> simp [GeoM.Translate]

theorem Paddle.Update_x (p : Paddle) (kb : Keyboard) (u d : Key) :
    (p.Update kb u d).position.Element 0 2 = p.position.Element 0 2 :=
  (Paddle.Update_frame p kb u d).2.2.2.2

/-- C12: `Paddle.Update` changes only the paddle's y-coordinate: the x-coordinate
(`Element(0, 2)`) and every other element of the position transform (the four entries of
the linear part, `Element(0, 0)`, `(0, 1)`, `(1, 0)`, `(1, 1)`) are the same after the
update as before, for every paddle and every key state. -/
theorem C12_paddle_update_changes_only_y (p : Paddle) (kb : Keyboard) (u d : Key) :
    (p.Update kb u d).position.Element 0 2 = p.position.Element 0 2 ∧
    (p.Update kb u d).position.Element 0 0 = p.position.Element 0 0 ∧
    (p.Update kb u d).position.Element 0 1 = p.position.Element 0 1 ∧
    (p.Update kb u d).position.Element 1 0 = p.position.Element 1 0 ∧
    (p.Update kb u d).position.Element 1 1 = p.position.Element 1 1 ∧
    (p.Update kb u d).position = { p.position with ty := (p.Update kb u d).position.ty } := by
  obtain ⟨h1, h2, h3, h4, h5⟩ := Paddle.Update_frame p kb u d
  refine ⟨h5, ?_, h2, h3, ?_, ?_⟩
  · show (p.Update kb u d).position.a_1 + 1 = p.position.a_1 + 1
    rw [h1]
  · show (p.Update kb u d).position.d_1 + 1 = p.position.d_1 + 1
    rw [h4]
  · cases hq : (p.Update kb u d).position with
    | mk a b c d tx ty =>
      rw [hq] at h1 h2 h3 h4 h5
      simp only at h1 h2 h3 h4 h5
      subst h1 h2 h3 h4 h5
      rfl

/-- C14: `Game.Layout` returns `(screenWidth, screenHeight) = (320, 240)` for every pair
of integers handed in, and for every game. -/
theorem C14_layout_is_fixed (g : Game) (outsideWidth outsideHeight : Int) :
    g.Layout outsideWidth outsideHeight = ((screenWidth : Int), (screenHeight : Int)) ∧
    g.Layout outsideWidth outsideHeight = (320, 240) := by
  constructor <;> rfl

theorem Game.Update_player (g : Game) (kb : Keyboard) (rng : Rand) :
    (g.Update kb rng).game.player = g.player.Update kb Key.KeyW Key.KeyS := rfl

theorem Game.Update_enemy (g : Game) (kb : Keyboard) (rng : Rand) :
    (g.Update kb rng).game.enemy = g.enemy.Update kb Key.KeyI Key.KeyK := rfl

theorem Game.Update_ball (g : Game) (kb : Keyboard) (rng : Rand) :
    (g.Update kb rng).game.ball =
      (g.ball.Update (g.player.Update kb Key.KeyW Key.KeyS)
        (g.enemy.Update kb Key.KeyI Key.KeyK) g.score g.speedMultiplier rng).ball := rfl

theorem Game.Update_scoreCell (g : Game) (kb : Keyboard) (rng : Rand) :
    (g.Update kb rng).game.score =
      (g.ball.Update (g.player.Update kb Key.KeyW Key.KeyS)
        (g.enemy.Update kb Key.KeyI Key.KeyK) g.score g.speedMultiplier rng).score := rfl

theorem Game.Update_rng (g : Game) (kb : Keyboard) (rng : Rand) :
    (g.Update kb rng).rng =
      (g.ball.Update (g.player.Update kb Key.KeyW Key.KeyS)
        (g.enemy.Update kb Key.KeyI Key.KeyK) g.score g.speedMultiplier rng).rng := rfl

/-- The horizontal positions of the two paddles are the same after any run. -/
theorem Game.run_paddles_x (g : Game) (rng : Rand) (kbs : List Keyboard) :
    (Game.run g rng kbs).1.player.position.Element 0 2 = g.player.position.Element 0 2 ∧
    (Game.run g rng kbs).1.enemy.position.Element 0 2 = g.enemy.position.Element 0 2 := by
  induction kbs generalizing g rng with
  | nil => exact ⟨rfl, rfl⟩
  | cons kb kbs ih =>
    have h := ih (g.Update kb rng).game (g.Update kb rng).rng
    rw [Game.Update_player, Game.Update_enemy, Paddle.Update_x, Paddle.Update_x] at h
    exact h

theorem main_paddles_x (rng : Rand) :
    (main rng).player.position.Element 0 2 = 53 ∧
    (main rng).enemy.position.Element 0 2 = 267 := by
  rw [(main_paddles_home rng).1, (main_paddles_home rng).2]
  exact ⟨paddleAt_x _ _, paddleAt_x _ _⟩

/-- A ball overlapping a paddle at x = 53 has `41 < x < 65`; at x = 267, `255 < x < 279`;
so no ball overlaps a paddle at 53 and a paddle at 267. -/
theorem Ball.overlaps_home_x (b : Ball) (p e : Paddle)
    (hp : p.position.Element 0 2 = 53) (he : e.position.Element 0 2 = 267) :
    (Ball.overlaps b p → 41 < b.position.Element 0 2 ∧ b.position.Element 0 2 < 65) ∧
    (Ball.overlaps b e → 255 < b.position.Element 0 2 ∧ b.position.Element 0 2 < 279) ∧
    ¬ (Ball.overlaps b p ∧ Ball.overlaps b e) := by
  rw [Ball.overlaps_iff, Ball.overlaps_iff, hp, he]
  refine ⟨fun h => ⟨by linarith [h.2.1], by linarith [h.1]⟩,
    fun h => ⟨by linarith [h.2.1], by linarith [h.1]⟩, fun h => ?_⟩
  linarith [h.1.1, h.2.2.1]

/-- C16: in every state reachable from the game built by `main`, the player paddle's x
is 53 and the enemy paddle's x is 267; a ball overlapping the player rectangle has
`41 < x < 65`, one overlapping the enemy rectangle has `255 < x < 279`, so no ball
position overlaps both, neither for the paddles of the state nor for the paddles as the
next tick moves them; hence in a tick without side exit `speedX` is negated at most once:
it ends as `-(old speedX) * multiplier` if one of the two tests holds and as
`(old speedX) * multiplier` if none does. -/
theorem C16_home_paddles_never_both_overlap (rng0 rng rng' : Rand) (kbs : List Keyboard)
    (kb : Keyboard) (b : Ball) :
    (Game.run (main rng0) rng kbs).1.player.position.Element 0 2 = 53 ∧
    (Game.run (main rng0) rng kbs).1.enemy.position.Element 0 2 = 267 ∧
    (Ball.overlaps b (Game.run (main rng0) rng kbs).1.player →
      41 < b.position.Element 0 2 ∧ b.position.Element 0 2 < 65) ∧
    (Ball.overlaps b (Game.run (main rng0) rng kbs).1.enemy →
      255 < b.position.Element 0 2 ∧ b.position.Element 0 2 < 279) ∧
    ¬ (Ball.overlaps b (Game.run (main rng0) rng kbs).1.player ∧
        Ball.overlaps b (Game.run (main rng0) rng kbs).1.enemy) ∧
    ¬ (Ball.overlaps b ((Game.run (main rng0) rng kbs).1.player.Update kb Key.KeyW Key.KeyS) ∧
        Ball.overlaps b ((Game.run (main rng0) rng kbs).1.enemy.Update kb Key.KeyI Key.KeyK)) ∧
    (¬ (Game.run (main rng0) rng kbs).1.ball.position.Element 0 2
          + (Game.run (main rng0) rng kbs).1.ball.speedX + ((circleRadius / 2 : Nat) : ℚ)
          > (screenWidth : ℚ) →
      ¬ (Game.run (main rng0) rng kbs).1.ball.position.Element 0 2
          + (Game.run (main rng0) rng kbs).1.ball.speedX - ((circleRadius / 2 : Nat) : ℚ) < 0 →
      ((Game.run (main rng0) rng kbs).1.Update kb rng').game.ball.speedX =
        (if Ball.overlaps { (Game.run (main rng0) rng kbs).1.ball with
              position := (Game.run (main rng0) rng kbs).1.ball.position.Translate
                (Game.run (main rng0) rng kbs).1.ball.speedX
                (Game.run (main rng0) rng kbs).1.ball.speedY }
              ((Game.run (main rng0) rng kbs).1.player.Update kb Key.KeyW Key.KeyS) ∨
            Ball.overlaps { (Game.run (main rng0) rng kbs).1.ball with
              position := (Game.run (main rng0) rng kbs).1.ball.position.Translate
                (Game.run (main rng0) rng kbs).1.ball.speedX
                (Game.run (main rng0) rng kbs).1.ball.speedY }
              ((Game.run (main rng0) rng kbs).1.enemy.Update kb Key.KeyI Key.KeyK)
          then -(Game.run (main rng0) rng kbs).1.ball.speedX
          else (Game.run (main rng0) rng kbs).1.ball.speedX)
        * (Game.run (main rng0) rng kbs).1.speedMultiplier) := by
  obtain ⟨hp, he⟩ := Game.run_paddles_x (main rng0) rng kbs
  rw [(main_paddles_x rng0).1] at hp
  rw [(main_paddles_x rng0).2] at he
  have hp' : ((Game.run (main rng0) rng kbs).1.player.Update kb
      Key.KeyW Key.KeyS).position.Element 0 2 = 53 := by rw [Paddle.Update_x, hp]
  have he' : ((Game.run (main rng0) rng kbs).1.enemy.Update kb
      Key.KeyI Key.KeyK).position.Element 0 2 = 267 := by rw [Paddle.Update_x, he]
  obtain ⟨h1, h2, h3⟩ := Ball.overlaps_home_x b _ _ hp he
  refine ⟨hp, he, h1, h2, h3, (Ball.overlaps_home_x b _ _ hp' he').2.2, fun hr hl => ?_⟩
  rw [Game.Update_ball, Ball.Update_no_exit_speedX _ _ _ _ _ _ hr hl]
  have hnot := (Ball.overlaps_home_x { (Game.run (main rng0) rng kbs).1.ball with
      position := (Game.run (main rng0) rng kbs).1.ball.position.Translate
        (Game.run (main rng0) rng kbs).1.ball.speedX
        (Game.run (main rng0) rng kbs).1.ball.speedY } _ _ hp' he').2.2
  by_cases hP : Ball.overlaps { (Game.run (main rng0) rng kbs).1.ball with
      position := (Game.run (main rng0) rng kbs).1.ball.position.Translate
        (Game.run (main rng0) rng kbs).1.ball.speedX
        (Game.run (main rng0) rng kbs).1.ball.speedY }
      ((Game.run (main rng0) rng kbs).1.player.Update kb Key.KeyW Key.KeyS)
  · have hE := fun h => hnot ⟨hP, h⟩
    rw [if_neg hE, if_pos hP, if_pos (Or.inl hP)]
  · by_cases hE : Ball.overlaps { (Game.run (main rng0) rng kbs).1.ball with
        position := (Game.run (main rng0) rng kbs).1.ball.position.Translate
          (Game.run (main rng0) rng kbs).1.ball.speedX
          (Game.run (main rng0) rng kbs).1.ball.speedY }
        ((Game.run (main rng0) rng kbs).1.enemy.Update kb Key.KeyI Key.KeyK)
    · rw [if_pos hE, if_neg hP, if_pos (Or.inr hE)]
    · rw [if_neg hE, if_neg hP, if_neg (fun h => h.elim hP hE)]

/-! ## C20: the reset inside `Ball.Update` -/

theorem Ball.Reset_rng (b : Ball) (rng : Rand) :
    (b.Reset rng).2.next = rng.next + 2 ∧ (b.Reset rng).2.draws = rng.draws :=
  ⟨rfl, rfl⟩

/-- After a right exit the generator has been read exactly twice. -/
theorem Ball.Update_right_rng (b : Ball) (player enemy : Paddle) (s : Int) (m : ℚ)
    (rng : Rand)
    (h : b.position.Element 0 2 + b.speedX + ((circleRadius / 2 : Nat) : ℚ)
          > (screenWidth : ℚ)) :
    (b.Update player enemy s m rng).rng.next = rng.next + 2 ∧
    (b.Update player enemy s m rng).rng.draws = rng.draws := by
  have hx : (Ball.bouncePaddle enemy (Ball.bouncePaddle player (Ball.bounceWalls (Ball.translate
      { ball := b, score := s, speedMultiplier := m, rng := rng })))).ball.position.Element 0 2
        + ((circleRadius / 2 : Nat) : ℚ) > (screenWidth : ℚ) := by
    rw [Ball.tests_position, GeoM.Element_Translate_x]; exact h
  unfold Ball.Update
  rw [Ball.edges_right _ hx]
  simp only [Ball.ramp, Ball.tests_rng]
  exact Ball.Reset_rng _ rng

/-- After a left exit the generator has been read exactly twice. -/
theorem Ball.Update_left_rng (b : Ball) (player enemy : Paddle) (s : Int) (m : ℚ)
    (rng : Rand)
    (h : b.position.Element 0 2 + b.speedX - ((circleRadius / 2 : Nat) : ℚ) < 0) :
    (b.Update player enemy s m rng).rng.next = rng.next + 2 ∧
    (b.Update player enemy s m rng).rng.draws = rng.draws := by
  have hx : (Ball.bouncePaddle enemy (Ball.bouncePaddle player (Ball.bounceWalls (Ball.translate
      { ball := b, score := s, speedMultiplier := m, rng := rng })))).ball.position.Element 0 2
        - ((circleRadius / 2 : Nat) : ℚ) < 0 := by
    rw [Ball.tests_position, GeoM.Element_Translate_x]; exact h
  unfold Ball.Update
  rw [Ball.edges_left _ hx]
  simp only [Ball.ramp, Ball.tests_rng]
  exact Ball.Reset_rng _ rng

/-- Position after a side exit: the centre. -/
theorem Ball.Update_exit_position (b : Ball) (player enemy : Paddle) (s : Int) (m : ℚ)
    (rng : Rand)
    (h : b.position.Element 0 2 + b.speedX + ((circleRadius / 2 : Nat) : ℚ)
          > (screenWidth : ℚ) ∨
      b.position.Element 0 2 + b.speedX - ((circleRadius / 2 : Nat) : ℚ) < 0) :
    (b.Update player enemy s m rng).ball.position.Element 0 2 = 160 ∧
    (b.Update player enemy s m rng).ball.position.Element 1 2 = 120 := by
  have hpos := Ball.tests_position b player enemy s m rng
  unfold Ball.Update
  rcases h with h | h
  · rw [Ball.edges_right _ (by rw [hpos, GeoM.Element_Translate_x]; exact h)]
    simp only [Ball.ramp, Ball.Reset_x, Ball.Reset_y, and_self]
  · rw [Ball.edges_left _ (by rw [hpos, GeoM.Element_Translate_x]; exact h)]
    simp only [Ball.ramp, Ball.Reset_x, Ball.Reset_y, and_self]

theorem abs_draw_speed_le (r m : ℚ) (h0 : 0 ≤ r) (h1 : r < 1) :
    |(2 * r - 1) * m| ≤ |m| := by
  rw [abs_mul]
  have h : |2 * r - 1| ≤ 1 := abs_le.mpr ⟨by linarith, by linarith⟩
  calc |2 * r - 1| * |m| ≤ 1 * |m| := mul_le_mul_of_nonneg_right h (abs_nonneg m)
    _ = |m| := one_mul _

/-- C20: in a tick where the translated ball leaves through either side, `Ball.Update`
resets the ball exactly once (the generator is read twice, and the ball ends at the
centre), and the freshly drawn speeds are ramped in the same tick: with the next two
draws `r1`, `r2` in `[0, 1)` and multiplier `m`, the speeds after `Ball.Update` are
`((2 r1 - 1) m, (2 r2 - 1) m)`, bounded by `|m|` in absolute value. -/
theorem C20_reset_in_update_is_single_and_ramped (b : Ball) (player enemy : Paddle)
    (s : Int) (m : ℚ) (rng : Rand)
    (hexit : b.position.Element 0 2 + b.speedX + ((circleRadius / 2 : Nat) : ℚ)
          > (screenWidth : ℚ) ∨
      b.position.Element 0 2 + b.speedX - ((circleRadius / 2 : Nat) : ℚ) < 0)
    (h1 : 0 ≤ rng.draws rng.next ∧ rng.draws rng.next < 1)
    (h2 : 0 ≤ rng.draws (rng.next + 1) ∧ rng.draws (rng.next + 1) < 1) :
    (b.Update player enemy s m rng).rng.next = rng.next + 2 ∧
    (b.Update player enemy s m rng).rng.draws = rng.draws ∧
    (b.Update player enemy s m rng).ball.position.Element 0 2 = 160 ∧
    (b.Update player enemy s m rng).ball.position.Element 1 2 = 120 ∧
    (b.Update player enemy s m rng).ball.speedX = (2 * rng.draws rng.next - 1) * m ∧
    (b.Update player enemy s m rng).ball.speedY = (2 * rng.draws (rng.next + 1) - 1) * m ∧
    |(b.Update player enemy s m rng).ball.speedX| ≤ |m| ∧
    |(b.Update player enemy s m rng).ball.speedY| ≤ |m| := by
  have hpos := Ball.Update_exit_position b player enemy s m rng hexit
  have hrng : (b.Update player enemy s m rng).rng.next = rng.next + 2 ∧
      (b.Update player enemy s m rng).rng.draws = rng.draws := by
    rcases hexit with h | h
    · exact Ball.Update_right_rng b player enemy s m rng h
    · exact Ball.Update_left_rng b player enemy s m rng h
  have hv : (b.Update player enemy s m rng).ball.speedX = (rng.draws rng.next * 2 - 1) * m ∧
      (b.Update player enemy s m rng).ball.speedY
        = (rng.draws (rng.next + 1) * 2 - 1) * m := by
    rcases hexit with h | h
    · exact Ball.Update_right_speeds b player enemy s m rng h
    · exact Ball.Update_left_speeds b player enemy s m rng h
  have hvx : (b.Update player enemy s m rng).ball.speedX
      = (2 * rng.draws rng.next - 1) * m := by rw [hv.1]; ring
  have hvy : (b.Update player enemy s m rng).ball.speedY
      = (2 * rng.draws (rng.next + 1) - 1) * m := by rw [hv.2]; ring
  refine ⟨hrng.1, hrng.2, hpos.1, hpos.2, hvx, hvy, ?_, ?_⟩
  · rw [hvx]; exact abs_draw_speed_le _ m h1.1 h1.2
  · rw [hvy]; exact abs_draw_speed_le _ m h2.1 h2.2

/-- Witness of C20: the corner ball leaving through the right edge, every draw `0`,
multiplier 2: both speeds end at `-2`, beyond the `[-1, 1]` of the draw. -/
theorem C20_reset_in_update_is_single_and_ramped_witness :
    (ballCornerExit.position.Element 0 2 + ballCornerExit.speedX
        + ((circleRadius / 2 : Nat) : ℚ) > (screenWidth : ℚ) ∨
      ballCornerExit.position.Element 0 2 + ballCornerExit.speedX
        - ((circleRadius / 2 : Nat) : ℚ) < 0) ∧
    (0 ≤ rngZero.draws rngZero.next ∧ rngZero.draws rngZero.next < 1) ∧
    (0 ≤ rngZero.draws (rngZero.next + 1) ∧ rngZero.draws (rngZero.next + 1) < 1) ∧
    ((ballCornerExit.Update playerHome enemyHome 0 2 rngZero).rng.next = rngZero.next + 2 ∧
      (ballCornerExit.Update playerHome enemyHome 0 2 rngZero).rng.draws = rngZero.draws ∧
      (ballCornerExit.Update playerHome enemyHome 0 2 rngZero).ball.position.Element 0 2
        = 160 ∧
      (ballCornerExit.Update playerHome enemyHome 0 2 rngZero).ball.position.Element 1 2
        = 120 ∧
      (ballCornerExit.Update playerHome enemyHome 0 2 rngZero).ball.speedX
        = (2 * rngZero.draws rngZero.next - 1) * 2 ∧
      (ballCornerExit.Update playerHome enemyHome 0 2 rngZero).ball.speedY
        = (2 * rngZero.draws (rngZero.next + 1) - 1) * 2 ∧
      |(ballCornerExit.Update playerHome enemyHome 0 2 rngZero).ball.speedX| ≤ |(2 : ℚ)| ∧
      |(ballCornerExit.Update playerHome enemyHome 0 2 rngZero).ball.speedY| ≤ |(2 : ℚ)|) ∧
    (2 * rngZero.draws rngZero.next - 1) * 2 = (-2 : ℚ) :=
  have hexit : ballCornerExit.position.Element 0 2 + ballCornerExit.speedX
        + ((circleRadius / 2 : Nat) : ℚ) > (screenWidth : ℚ) ∨
      ballCornerExit.position.Element 0 2 + ballCornerExit.speedX
        - ((circleRadius / 2 : Nat) : ℚ) < 0 := by
    left
    simp only [ballCornerExit, ballAt_x, halfCircle_eq, screenWidth_eq]
    norm_num [ballAt]
  have h1 : 0 ≤ rngZero.draws rngZero.next ∧ rngZero.draws rngZero.next < 1 := by
    norm_num [rngZero]
  have h2 : 0 ≤ rngZero.draws (rngZero.next + 1) ∧ rngZero.draws (rngZero.next + 1) < 1 := by
    norm_num [rngZero]
  ⟨hexit, h1, h2,
    C20_reset_in_update_is_single_and_ramped ballCornerExit playerHome enemyHome 0 2 rngZero
      hexit h1 h2,
    by norm_num [rngZero]⟩

/-! ## C17: a ball without horizontal speed -/

/-- One tick of a ball with `speedX = 0` and `8 ≤ x ≤ 312`: nothing horizontal happens. -/
theorem Ball.Update_stuck (b : Ball) (player enemy : Paddle) (s : Int) (m : ℚ) (rng : Rand)
    (hv : b.speedX = 0)
    (hx : 8 ≤ b.position.Element 0 2 ∧ b.position.Element 0 2 ≤ 312) :
    (b.Update player enemy s m rng).ball.speedX = 0 ∧
    (b.Update player enemy s m rng).ball.position.Element 0 2 = b.position.Element 0 2 ∧
    (b.Update player enemy s m rng).score = s ∧
    (b.Update player enemy s m rng).rng = rng := by
  have hr : ¬ b.position.Element 0 2 + b.speedX + ((circleRadius / 2 : Nat) : ℚ)
      > (screenWidth : ℚ) := by
    rw [hv, halfCircle_eq, screenWidth_eq]; linarith [hx.2]
  have hl : ¬ b.position.Element 0 2 + b.speedX - ((circleRadius / 2 : Nat) : ℚ) < 0 := by
    rw [hv, halfCircle_eq]; linarith [hx.1]
  refine ⟨?_, ?_, Ball.Update_no_exit_score b player enemy s m rng hr hl,
    Ball.Update_no_exit_rng b player enemy s m rng hr hl⟩
  · rw [Ball.Update_no_exit_speedX b player enemy s m rng hr hl, hv]
    split_ifs <;> simp
  · rw [Ball.Update_no_exit_position b player enemy s m rng hr hl, GeoM.Element_Translate_x,
      hv, add_zero]

theorem Ball.runTicks_stuck (b : Ball) (s : Int) (rng : Rand)
    (ticks : List (Paddle × Paddle × ℚ))
    (hv : b.speedX = 0)
    (hx : 8 ≤ b.position.Element 0 2 ∧ b.position.Element 0 2 ≤ 312) :
    (b.runTicks s rng ticks).1.speedX = 0 ∧
    (b.runTicks s rng ticks).1.position.Element 0 2 = b.position.Element 0 2 ∧
    (b.runTicks s rng ticks).2.1 = s ∧
    (b.runTicks s rng ticks).2.2 = rng := by
  induction ticks generalizing b s rng with
  | nil => exact ⟨hv, rfl, rfl, rfl⟩
  | cons t ts ih =>
    obtain ⟨player, enemy, m⟩ := t
    obtain ⟨h1, h2, h3, h4⟩ := Ball.Update_stuck b player enemy s m rng hv hx
    have h := ih (b.Update player enemy s m rng).ball (b.Update player enemy s m rng).score
      (b.Update player enemy s m rng).rng h1 (by rw [h2]; exact hx)
    have e : b.runTicks s rng ((player, enemy, m) :: ts)
        = (b.Update player enemy s m rng).ball.runTicks (b.Update player enemy s m rng).score
            (b.Update player enemy s m rng).rng ts := rfl
    rw [h2, h3, h4] at h
    rw [e, h3, h4]
    exact h

theorem Game.run_stuck (g : Game) (rng : Rand) (kbs : List Keyboard)
    (hv : g.ball.speedX = 0)
    (hx : 8 ≤ g.ball.position.Element 0 2 ∧ g.ball.position.Element 0 2 ≤ 312) :
    (Game.run g rng kbs).1.ball.speedX = 0 ∧
    (Game.run g rng kbs).1.ball.position.Element 0 2 = g.ball.position.Element 0 2 ∧
    (Game.run g rng kbs).1.score = g.score ∧
    (Game.run g rng kbs).2 = rng := by
  induction kbs generalizing g rng with
  | nil => exact ⟨hv, rfl, rfl, rfl⟩
  | cons kb kbs ih =>
    obtain ⟨h1, h2, h3, h4⟩ := Ball.Update_stuck g.ball (g.player.Update kb Key.KeyW Key.KeyS)
      (g.enemy.Update kb Key.KeyI Key.KeyK) g.score g.speedMultiplier rng hv hx
    rw [← Game.Update_ball] at h1 h2
    rw [← Game.Update_scoreCell] at h3
    rw [← Game.Update_rng] at h4
    have h := ih (g.Update kb rng).game (g.Update kb rng).rng h1 (by rw [h2]; exact hx)
    have e : Game.run g rng (kb :: kbs)
        = Game.run (g.Update kb rng).game (g.Update kb rng).rng kbs := rfl
    rw [h2, h3, h4] at h
    rw [e, h4]
    exact h

/-- C17: if the ball's `speedX` is 0 and its x satisfies `8 ≤ x ≤ 312`, then after any
number of further ticks, whatever the paddles and the multiplier handed to each
`Ball.Update` (and, in the game, whatever the keys), `speedX` is still 0, x is the same,
the generator has not been read (no reset occurred) and the score is the same. -/
theorem C17_zero_speedX_is_stuck (b : Ball) (s : Int) (rng : Rand)
    (ticks : List (Paddle × Paddle × ℚ)) (g : Game) (kbs : List Keyboard)
    (hv : b.speedX = 0)
    (hx : 8 ≤ b.position.Element 0 2 ∧ b.position.Element 0 2 ≤ 312)
    (hg : g.ball = b) :
    ((b.runTicks s rng ticks).1.speedX = 0 ∧
      (b.runTicks s rng ticks).1.position.Element 0 2 = b.position.Element 0 2 ∧
      (b.runTicks s rng ticks).2.1 = s ∧
      (b.runTicks s rng ticks).2.2 = rng) ∧
    ((Game.run g rng kbs).1.ball.speedX = 0 ∧
      (Game.run g rng kbs).1.ball.position.Element 0 2 = b.position.Element 0 2 ∧
      (Game.run g rng kbs).1.score = g.score ∧
      (Game.run g rng kbs).2 = rng) := by
  subst hg
  exact ⟨Ball.runTicks_stuck g.ball s rng ticks hv hx, Game.run_stuck g rng kbs hv hx⟩

/-- Witness of C17: the ball right after a `Reset` whose horizontal draw is `1/2`, driven
for two ticks with different paddles and multipliers, and inside the game for two ticks. -/
theorem C17_zero_speedX_is_stuck_witness :
    ballAfterHalfReset.speedX = 0 ∧
    (8 ≤ ballAfterHalfReset.position.Element 0 2 ∧
      ballAfterHalfReset.position.Element 0 2 ≤ 312) ∧
    gameAfterHalfReset.ball = ballAfterHalfReset ∧
    (((ballAfterHalfReset.runTicks 3 rngQuarter
          [(playerHome, enemyHome, 2), (paddleTwinLeft, paddleTwinRight, 5)]).1.speedX = 0 ∧
      (ballAfterHalfReset.runTicks 3 rngQuarter
          [(playerHome, enemyHome, 2), (paddleTwinLeft, paddleTwinRight, 5)]).1.position.Element
            0 2 = ballAfterHalfReset.position.Element 0 2 ∧
      (ballAfterHalfReset.runTicks 3 rngQuarter
          [(playerHome, enemyHome, 2), (paddleTwinLeft, paddleTwinRight, 5)]).2.1 = 3 ∧
      (ballAfterHalfReset.runTicks 3 rngQuarter
          [(playerHome, enemyHome, 2), (paddleTwinLeft, paddleTwinRight, 5)]).2.2
            = rngQuarter) ∧
    ((Game.run gameAfterHalfReset rngQuarter [kbAll, kbW]).1.ball.speedX = 0 ∧
      (Game.run gameAfterHalfReset rngQuarter [kbAll, kbW]).1.ball.position.Element 0 2
        = ballAfterHalfReset.position.Element 0 2 ∧
      (Game.run gameAfterHalfReset rngQuarter [kbAll, kbW]).1.score
        = gameAfterHalfReset.score ∧
      (Game.run gameAfterHalfReset rngQuarter [kbAll, kbW]).2 = rngQuarter)) :=
  have hv : ballAfterHalfReset.speedX = 0 := by
    unfold ballAfterHalfReset
    rw [Ball.Reset_speedX]
    norm_num [rngHalf]
  have hx : 8 ≤ ballAfterHalfReset.position.Element 0 2 ∧
      ballAfterHalfReset.position.Element 0 2 ≤ 312 := by
    unfold ballAfterHalfReset
    rw [Ball.Reset_x]
    norm_num
  ⟨hv, hx, rfl,
    C17_zero_speedX_is_stuck ballAfterHalfReset 3 rngQuarter
      [(playerHome, enemyHome, 2), (paddleTwinLeft, paddleTwinRight, 5)]
      gameAfterHalfReset [kbAll, kbW] hv hx rfl⟩

/-! ## C18: the wall bounce over two ticks -/

/-- C18: for a ball vertically in bounds before a tick (`8 ≤ y ≤ 232`), a multiplier
`m ≥ 1` and no side exit in that tick, if the translation crosses a wall then `speedY` is
negated and ramped (`-(old speedY) * m`), and the position the next tick translates to
(line 52 of the next `Ball.Update`, whatever multiplier that tick is handed) is back
inside that wall: after crossing the top wall, `y'' - 8 ≥ 0`; after crossing the bottom
wall, `y'' + 8 ≤ screenHeight`.  So the same wall's condition does not hold again on the
next tick. -/
theorem C18_wall_bounce_does_not_stick (b : Ball) (player enemy : Paddle) (s : Int)
    (m m2 : ℚ) (rng : Rand)
    (hy : 8 ≤ b.position.Element 1 2 ∧ b.position.Element 1 2 ≤ 232)
    (hm : 1 ≤ m)
    (hr : ¬ b.position.Element 0 2 + b.speedX + ((circleRadius / 2 : Nat) : ℚ)
          > (screenWidth : ℚ))
    (hl : ¬ b.position.Element 0 2 + b.speedX - ((circleRadius / 2 : Nat) : ℚ) < 0)
    (hw : b.position.Element 1 2 + b.speedY - ((circleRadius / 2 : Nat) : ℚ) < 0 ∨
      b.position.Element 1 2 + b.speedY + ((circleRadius / 2 : Nat) : ℚ)
        > (screenHeight : ℚ)) :
    (b.Update player enemy s m rng).ball.speedY = -b.speedY * m ∧
    (b.position.Element 1 2 + b.speedY - ((circleRadius / 2 : Nat) : ℚ) < 0 →
      0 ≤ (Ball.translate { ball := (b.Update player enemy s m rng).ball,
                            score := (b.Update player enemy s m rng).score,
                            speedMultiplier := m2,
                            rng := (b.Update player enemy s m rng).rng }).ball.position.Element
              1 2 - ((circleRadius / 2 : Nat) : ℚ)) ∧
    (b.position.Element 1 2 + b.speedY + ((circleRadius / 2 : Nat) : ℚ) > (screenHeight : ℚ) →
      (Ball.translate { ball := (b.Update player enemy s m rng).ball,
                        score := (b.Update player enemy s m rng).score,
                        speedMultiplier := m2,
                        rng := (b.Update player enemy s m rng).rng }).ball.position.Element
          1 2 + ((circleRadius / 2 : Nat) : ℚ) ≤ (screenHeight : ℚ)) := by
  have hv := Ball.Update_wall_speedY b player enemy s m rng hw hr hl
  have hp := Ball.Update_no_exit_position b player enemy s m rng hr hl
  have hy2 : ∀ m2 : ℚ, (Ball.translate
      { ball := (b.Update player enemy s m rng).ball,
        score := (b.Update player enemy s m rng).score,
        speedMultiplier := m2,
        rng := (b.Update player enemy s m rng).rng }).ball.position.Element 1 2
      = b.position.Element 1 2 + b.speedY + -b.speedY * m := by
    intro m2
    show ((b.Update player enemy s m rng).ball.position.Translate
      (b.Update player enemy s m rng).ball.speedX
      (b.Update player enemy s m rng).ball.speedY).Element 1 2 = _
    rw [GeoM.Element_Translate_y, hp, GeoM.Element_Translate_y, hv]
  rw [hy2 m2, halfCircle_eq, screenHeight_eq]
  refine ⟨hv, fun htop => ?_, fun hbot => ?_⟩
  · have hneg : b.speedY < 0 := by linarith [hy.1]
    nlinarith [mul_nonneg (neg_nonneg.mpr hneg.le) (sub_nonneg.mpr hm), hy.1]
  · have hpos : 0 < b.speedY := by linarith [hy.2]
    nlinarith [mul_nonneg hpos.le (sub_nonneg.mpr hm), hy.2]

/-- Witness of C18: the ball crossing the top wall from (100, 9) with speed (0, -2),
multiplier 3/2; the next tick is handed multiplier 7. -/
theorem C18_wall_bounce_does_not_stick_witness :
    (8 ≤ ballTopWall.position.Element 1 2 ∧ ballTopWall.position.Element 1 2 ≤ 232) ∧
    (1 : ℚ) ≤ 3 / 2 ∧
    ¬ ballTopWall.position.Element 0 2 + ballTopWall.speedX
        + ((circleRadius / 2 : Nat) : ℚ) > (screenWidth : ℚ) ∧
    ¬ ballTopWall.position.Element 0 2 + ballTopWall.speedX
        - ((circleRadius / 2 : Nat) : ℚ) < 0 ∧
    (ballTopWall.position.Element 1 2 + ballTopWall.speedY
        - ((circleRadius / 2 : Nat) : ℚ) < 0 ∨
      ballTopWall.position.Element 1 2 + ballTopWall.speedY
        + ((circleRadius / 2 : Nat) : ℚ) > (screenHeight : ℚ)) ∧
    ((ballTopWall.Update playerHome enemyHome 0 (3 / 2) rngHalf).ball.speedY
        = -ballTopWall.speedY * (3 / 2) ∧
      (ballTopWall.position.Element 1 2 + ballTopWall.speedY
          - ((circleRadius / 2 : Nat) : ℚ) < 0 →
        0 ≤ (Ball.translate
          { ball := (ballTopWall.Update playerHome enemyHome 0 (3 / 2) rngHalf).ball,
            score := (ballTopWall.Update playerHome enemyHome 0 (3 / 2) rngHalf).score,
            speedMultiplier := 7,
            rng := (ballTopWall.Update playerHome enemyHome 0 (3 / 2)
              rngHalf).rng }).ball.position.Element 1 2 - ((circleRadius / 2 : Nat) : ℚ)) ∧
      (ballTopWall.position.Element 1 2 + ballTopWall.speedY
          + ((circleRadius / 2 : Nat) : ℚ) > (screenHeight : ℚ) →
        (Ball.translate
          { ball := (ballTopWall.Update playerHome enemyHome 0 (3 / 2) rngHalf).ball,
            score := (ballTopWall.Update playerHome enemyHome 0 (3 / 2) rngHalf).score,
            speedMultiplier := 7,
            rng := (ballTopWall.Update playerHome enemyHome 0 (3 / 2)
              rngHalf).rng }).ball.position.Element 1 2 + ((circleRadius / 2 : Nat) : ℚ)
          ≤ (screenHeight : ℚ))) :=
  have hy : 8 ≤ ballTopWall.position.Element 1 2 ∧ ballTopWall.position.Element 1 2 ≤ 232 := by
    simp only [ballTopWall, ballAt_y]
    norm_num
  have hm : (1 : ℚ) ≤ 3 / 2 := by norm_num
  have hr : ¬ ballTopWall.position.Element 0 2 + ballTopWall.speedX
      + ((circleRadius / 2 : Nat) : ℚ) > (screenWidth : ℚ) := by
    simp only [ballTopWall, ballAt_x, halfCircle_eq, screenWidth_eq]
    norm_num [ballAt]
  have hl : ¬ ballTopWall.position.Element 0 2 + ballTopWall.speedX
      - ((circleRadius / 2 : Nat) : ℚ) < 0 := by
    simp only [ballTopWall, ballAt_x, halfCircle_eq]
    norm_num [ballAt]
  have hw : ballTopWall.position.Element 1 2 + ballTopWall.speedY
        - ((circleRadius / 2 : Nat) : ℚ) < 0 ∨
      ballTopWall.position.Element 1 2 + ballTopWall.speedY
        + ((circleRadius / 2 : Nat) : ℚ) > (screenHeight : ℚ) := by
    left
    simp only [ballTopWall, ballAt_y, halfCircle_eq]
    norm_num [ballAt]
  ⟨hy, hm, hr, hl, hw,
    C18_wall_bounce_does_not_stick ballTopWall playerHome enemyHome 0 (3 / 2) 7 rngHalf
      hy hm hr hl hw⟩

/-! ## C15: the order of the steps of a tick -/

theorem Ball.Update_eq_ramp (b : Ball) (player enemy : Paddle) (s : Int) (m : ℚ)
    (rng : Rand) :
    b.Update player enemy s m rng = Ball.ramp (Ball.beforeRamp b player enemy s m rng) := rfl

theorem Ball.beforeRamp_mult (b : Ball) (player enemy : Paddle) (s : Int) (m : ℚ)
    (rng : Rand) : (Ball.beforeRamp b player enemy s m rng).speedMultiplier = m := by
  unfold Ball.beforeRamp
  rw [Ball.resetLeft_mult, Ball.scoreRight_mult]
  exact Ball.tests_mult b player enemy s m rng

/-- Both speeds after `Ball.Update` are the speeds before the ramp times the multiplier
handed in. -/
theorem Ball.Update_scaled (b : Ball) (player enemy : Paddle) (s : Int) (m : ℚ)
    (rng : Rand) :
    (b.Update player enemy s m rng).ball.speedX
      = (Ball.beforeRamp b player enemy s m rng).ball.speedX * m ∧
    (b.Update player enemy s m rng).ball.speedY
      = (Ball.beforeRamp b player enemy s m rng).ball.speedY * m := by
  rw [Ball.Update_eq_ramp]
  simp only [Ball.ramp, Ball.beforeRamp_mult, and_self]

theorem Game.Update_eq_tickSpec (g : Game) (kb : Keyboard) (rng : Rand) :
    g.Update kb rng = g.tickSpec kb rng := by
  simp only [Game.Update, Game.tickSpec, Game.stepCount, Game.stepPlayer, Game.stepEnemy,
    Game.stepBall, Game.stepMultiplier]

/-- C15: `Game.Update` is the sequential composition, in this order, of the counter
increment, the player `Paddle.Update`, the enemy `Paddle.Update`, the `Ball.Update` run
against the paddles as moved in this tick and the multiplier before its increment, and the
multiplier increment; it returns a nil error.  So in the tick that follows `k - 1` ticks
from the game of `main`, `Ball.Update` is handed `1 + (k - 1) * speedIncrease` and scales
both speeds by it; in the first tick the factor is exactly 1. -/
theorem C15_update_is_the_five_steps_in_order (g : Game) (rng0 rng rng' : Rand)
    (kbs : List Keyboard) (kb : Keyboard) :
    g.Update kb rng = g.tickSpec kb rng ∧
    (g.Update kb rng).err = none ∧
    ((Game.run (main rng0) rng kbs).1.Update kb rng').game.ball =
      ((Game.run (main rng0) rng kbs).1.ball.Update
        ((Game.run (main rng0) rng kbs).1.player.Update kb Key.KeyW Key.KeyS)
        ((Game.run (main rng0) rng kbs).1.enemy.Update kb Key.KeyI Key.KeyK)
        (Game.run (main rng0) rng kbs).1.score
        (1 + (kbs.length : ℚ) * speedIncrease) rng').ball ∧
    ((Game.run (main rng0) rng kbs).1.Update kb rng').game.ball.speedX =
      (Ball.beforeRamp (Game.run (main rng0) rng kbs).1.ball
        ((Game.run (main rng0) rng kbs).1.player.Update kb Key.KeyW Key.KeyS)
        ((Game.run (main rng0) rng kbs).1.enemy.Update kb Key.KeyI Key.KeyK)
        (Game.run (main rng0) rng kbs).1.score
        (1 + (kbs.length : ℚ) * speedIncrease) rng').ball.speedX
        * (1 + (kbs.length : ℚ) * speedIncrease) ∧
    ((Game.run (main rng0) rng kbs).1.Update kb rng').game.ball.speedY =
      (Ball.beforeRamp (Game.run (main rng0) rng kbs).1.ball
        ((Game.run (main rng0) rng kbs).1.player.Update kb Key.KeyW Key.KeyS)
        ((Game.run (main rng0) rng kbs).1.enemy.Update kb Key.KeyI Key.KeyK)
        (Game.run (main rng0) rng kbs).1.score
        (1 + (kbs.length : ℚ) * speedIncrease) rng').ball.speedY
        * (1 + (kbs.length : ℚ) * speedIncrease) ∧
    ((main rng0).Update kb rng').game.ball.speedX =
      (Ball.beforeRamp (main rng0).ball ((main rng0).player.Update kb Key.KeyW Key.KeyS)
        ((main rng0).enemy.Update kb Key.KeyI Key.KeyK) (main rng0).score 1 rng').ball.speedX ∧
    ((main rng0).Update kb rng').game.ball.speedY =
      (Ball.beforeRamp (main rng0).ball ((main rng0).player.Update kb Key.KeyW Key.KeyS)
        ((main rng0).enemy.Update kb Key.KeyI Key.KeyK) (main rng0).score 1 rng').ball.speedY := by
  have hm : (Game.run (main rng0) rng kbs).1.speedMultiplier
      = 1 + (kbs.length : ℚ) * speedIncrease := by
    rw [Game.run_mult]; rfl
  have hm0 : (main rng0).speedMultiplier = 1 := rfl
  refine ⟨Game.Update_eq_tickSpec g kb rng, rfl, ?_, ?_, ?_, ?_, ?_⟩
  · rw [Game.Update_ball, hm]
  · rw [Game.Update_ball, hm]; exact (Ball.Update_scaled _ _ _ _ _ _).1
  · rw [Game.Update_ball, hm]; exact (Ball.Update_scaled _ _ _ _ _ _).2
  · rw [Game.Update_ball, hm0, (Ball.Update_scaled _ _ _ _ _ _).1, mul_one]
  · rw [Game.Update_ball, hm0, (Ball.Update_scaled _ _ _ _ _ _).2, mul_one]

/-! ## C13: the score -/

/-- Score after `Ball.Update`: incremented once (Go `int`) on a right exit, else the one
handed in. -/
theorem Ball.Update_score (b : Ball) (player enemy : Paddle) (s : Int) (m : ℚ) (rng : Rand) :
    (b.Update player enemy s m rng).score =
      if b.position.Element 0 2 + b.speedX + ((circleRadius / 2 : Nat) : ℚ)
          > (screenWidth : ℚ)
      then wrapInt (s + 1) else s := by
  have hpos := Ball.tests_position b player enemy s m rng
  by_cases hr : b.position.Element 0 2 + b.speedX + ((circleRadius / 2 : Nat) : ℚ)
      > (screenWidth : ℚ)
  · rw [if_pos hr]
    unfold Ball.Update
    rw [Ball.edges_right _ (by rw [hpos, GeoM.Element_Translate_x]; exact hr)]
    simp only [Ball.ramp, Ball.tests_score]
  · rw [if_neg hr]
    by_cases hl : b.position.Element 0 2 + b.speedX - ((circleRadius / 2 : Nat) : ℚ) < 0
    · unfold Ball.Update
      rw [Ball.edges_left _ (by rw [hpos, GeoM.Element_Translate_x]; exact hl)]
      simp only [Ball.ramp, Ball.tests_score]
    · exact Ball.Update_no_exit_score b player enemy s m rng hr hl

theorem wrapInt_lt (n : Int) : wrapInt n < 2 ^ 63 := by
  unfold wrapInt
  omega

theorem wrapInt_ge (n : Int) : -2 ^ 63 ≤ wrapInt n := by
  unfold wrapInt
  omega

/-- One tick changes the score by nothing or by one Go `int` increment. -/
theorem Game.Update_score_cases (g : Game) (kb : Keyboard) (rng : Rand) :
    (g.Update kb rng).game.score = g.score ∨
    (g.Update kb rng).game.score = wrapInt (g.score + 1) := by
  rw [Game.Update_scoreCell, Ball.Update_score]
  split_ifs
  · exact Or.inr rfl
  · exact Or.inl rfl

/-- Over a run short enough for the score not to wrap, the score grows by at most one
per tick and never shrinks. -/
theorem Game.run_score_bounds (g : Game) (rng : Rand) (kbs : List Keyboard)
    (h0 : -2 ^ 63 ≤ g.score) (h : g.score + (kbs.length : Int) < 2 ^ 63) :
    g.score ≤ (Game.run g rng kbs).1.score ∧
    (Game.run g rng kbs).1.score ≤ g.score + (kbs.length : Int) := by
  induction kbs generalizing g rng with
  | nil => simp [Game.run]
  | cons kb kbs ih =>
    have e : Game.run g rng (kb :: kbs)
        = Game.run (g.Update kb rng).game (g.Update kb rng).rng kbs := rfl
    rw [e]
    simp only [List.length_cons, Nat.cast_add, Nat.cast_one] at h ⊢
    rcases Game.Update_score_cases g kb rng with hs | hs
    · have := ih (g.Update kb rng).game (g.Update kb rng).rng (by rw [hs]; exact h0)
        (by rw [hs]; omega)
      rw [hs] at this
      omega
    · have hw : wrapInt (g.score + 1) = g.score + 1 :=
        wrapInt_of_inRange _ (by omega) (by omega)
      have := ih (g.Update kb rng).game (g.Update kb rng).rng (by rw [hs, hw]; omega)
        (by rw [hs, hw]; omega)
      rw [hs, hw] at this
      omega

/-- C13, amended: in every state reached from the game of `main` by a run of `N` ticks
with `N + 1 < 2^63`, the score is a non-negative integer (at most `N`), and a further
`Game.Update` changes it by 0 or by exactly +1; `Ball.Update` hands back the multiplier
it was given. -/
theorem C13_score_steps_by_zero_or_one (rng0 rng rng' : Rand) (kbs : List Keyboard)
    (kb : Keyboard) (b : Ball) (player enemy : Paddle) (s : Int) (m : ℚ) (r : Rand)
    (h : (kbs.length : Int) + 1 < 2 ^ 63) :
    0 ≤ (Game.run (main rng0) rng kbs).1.score ∧
    (Game.run (main rng0) rng kbs).1.score ≤ (kbs.length : Int) ∧
    (((Game.run (main rng0) rng kbs).1.Update kb rng').game.score
        = (Game.run (main rng0) rng kbs).1.score ∨
      ((Game.run (main rng0) rng kbs).1.Update kb rng').game.score
        = (Game.run (main rng0) rng kbs).1.score + 1) ∧
    (b.Update player enemy s m r).speedMultiplier = m := by
  have h0 : (main rng0).score = 0 := rfl
  have hb := Game.run_score_bounds (main rng0) rng kbs (by rw [h0]; norm_num)
    (by rw [h0]; omega)
  rw [h0] at hb
  refine ⟨hb.1, by omega, ?_, Ball.Update_mult b player enemy s m r⟩
  rcases Game.Update_score_cases (Game.run (main rng0) rng kbs).1 kb rng' with hs | hs
  · exact Or.inl hs
  · right
    rw [hs]
    exact wrapInt_of_inRange _ (by omega) (by omega)

/-- Witness of C13 (amended): two ticks from the game of `main`, then a third. -/
theorem C13_score_steps_by_zero_or_one_witness :
    ((([kbAll, kbW] : List Keyboard).length : Int) + 1 < 2 ^ 63) ∧
    (0 ≤ (Game.run (main rngHalf) rngQuarter [kbAll, kbW]).1.score ∧
      (Game.run (main rngHalf) rngQuarter [kbAll, kbW]).1.score
        ≤ (([kbAll, kbW] : List Keyboard).length : Int) ∧
      (((Game.run (main rngHalf) rngQuarter [kbAll, kbW]).1.Update kbI rngZero).game.score
          = (Game.run (main rngHalf) rngQuarter [kbAll, kbW]).1.score ∨
        ((Game.run (main rngHalf) rngQuarter [kbAll, kbW]).1.Update kbI rngZero).game.score
          = (Game.run (main rngHalf) rngQuarter [kbAll, kbW]).1.score + 1) ∧
      (ballCornerExit.Update playerHome enemyHome 7 (3 / 2) rngQuarter).speedMultiplier
        = 3 / 2) :=
  ⟨by norm_num,
    C13_score_steps_by_zero_or_one rngHalf rngQuarter rngZero [kbAll, kbW] kbI
      ballCornerExit playerHome enemyHome 7 (3 / 2) rngQuarter (by norm_num)⟩

/-! ### The run that wraps the score -/

theorem Paddle.Update_kbI_enemy_y (p : Paddle) :
    (p.Update kbI Key.KeyI Key.KeyK).position.Element 1 2 =
      if p.position.Element 1 2 > 24 then p.position.Element 1 2 - 4
      else p.position.Element 1 2 := by
  rw [Paddle.Update_y]
  have h1 : kbI Key.KeyI = true := rfl
  have h2 : kbI Key.KeyK = false := rfl
  simp only [h1, h2, true_and, false_and, if_false, Bool.false_eq_true]

theorem rngFlight_next_draws (rng : Rand) (hd : rng.draws = rngFlight.draws)
    (he : rng.next % 2 = 0) :
    rng.draws rng.next = 3 / 4 ∧ rng.draws (rng.next + 1) = 1 / 2 := by
  rw [hd]
  have h1 : (rng.next + 1) % 2 ≠ 0 := by omega
  simp only [rngFlight, he, h1, if_true, if_false, and_self]

theorem rngFlight_inUnit : rngFlight.InUnit := by
  intro n
  unfold rngFlight
  dsimp only
  split_ifs <;> norm_num

/-- One tick of the scoring run: the invariant is kept, and either the ball advances by
at least `1/2` with the score as it was, or the score takes one Go `int` increment and
the ball restarts from the centre. -/
theorem FlightInv.step {g : Game} {rng : Rand} (h : FlightInv g rng) :
    FlightInv (g.Update kbI rng).game (g.Update kbI rng).rng ∧
    (((g.Update kbI rng).game.score = g.score ∧
        g.ball.position.Element 0 2 + 1 / 2 ≤ (g.Update kbI rng).game.ball.position.Element 0 2) ∨
      ((g.Update kbI rng).game.score = wrapInt (g.score + 1) ∧
        (g.Update kbI rng).game.ball.position.Element 0 2 = 160)) := by
  obtain ⟨hy, hvy, hx1, hx2, hvx, hm, hd, hn, hpx, hex, hclear, hsc⟩ := h
  obtain ⟨hr1, hr2⟩ := rngFlight_next_draws rng hd hn
  have hpx' : (g.player.Update kbI Key.KeyW Key.KeyS).position.Element 0 2 = 53 := by
    rw [Paddle.Update_x, hpx]
  have hex' : (g.enemy.Update kbI Key.KeyI Key.KeyK).position.Element 0 2 = 267 := by
    rw [Paddle.Update_x, hex]
  have hey' := Paddle.Update_kbI_enemy_y g.enemy
  have hinc : (0 : ℚ) < speedIncrease := by norm_num [speedIncrease]
  have hl : ¬ g.ball.position.Element 0 2 + g.ball.speedX
      - ((circleRadius / 2 : Nat) : ℚ) < 0 := by
    rw [halfCircle_eq]; linarith
  rw [Game.Update_scoreCell, Game.Update_ball]
  unfold FlightInv
  rw [Game.Update_ball, Game.Update_rng, Game.Update_speedMultiplier, Game.Update_player,
    Game.Update_enemy, Game.Update_scoreCell, hpx', hex']
  by_cases hr : g.ball.position.Element 0 2 + g.ball.speedX + ((circleRadius / 2 : Nat) : ℚ)
      > (screenWidth : ℚ)
  · -- the ball leaves through the right edge
    obtain ⟨hpX, hpY⟩ := Ball.Update_exit_position g.ball
      (g.player.Update kbI Key.KeyW Key.KeyS) (g.enemy.Update kbI Key.KeyI Key.KeyK)
      g.score g.speedMultiplier rng (Or.inl hr)
    obtain ⟨hsX, hsY⟩ := Ball.Update_right_speeds g.ball
      (g.player.Update kbI Key.KeyW Key.KeyS) (g.enemy.Update kbI Key.KeyI Key.KeyK)
      g.score g.speedMultiplier rng hr
    obtain ⟨hrn, hrd⟩ := Ball.Update_right_rng g.ball
      (g.player.Update kbI Key.KeyW Key.KeyS) (g.enemy.Update kbI Key.KeyI Key.KeyK)
      g.score g.speedMultiplier rng hr
    have hscore := Ball.Update_score g.ball
      (g.player.Update kbI Key.KeyW Key.KeyS) (g.enemy.Update kbI Key.KeyI Key.KeyK)
      g.score g.speedMultiplier rng
    rw [if_pos hr] at hscore
    rw [hr1] at hsX
    rw [hr2] at hsY
    have hfar : g.enemy.position.Element 1 2 ≤ 88 := by
      rcases hclear with hc | ⟨k, hk, _, hkx, hkv, _⟩
      · exact hc
      · exfalso
        rw [halfCircle_eq, screenWidth_eq] at hr
        have hk' : (k : ℚ) ≤ 7 := by exact_mod_cast Nat.lt_succ_iff.mp hk
        linarith
    rw [hpX, hpY, hsX, hsY, hrn, hrd, hscore]
    refine ⟨⟨rfl, by ring, by norm_num, by norm_num, by linarith, by linarith, hd, by omega,
      rfl, rfl, Or.inl ?_, wrapInt_lt _⟩, Or.inr ⟨rfl, rfl⟩⟩
    rw [hey']
    split_ifs <;> linarith
  · -- the ball stays in the field
    have hpos := Ball.Update_no_exit_position g.ball
      (g.player.Update kbI Key.KeyW Key.KeyS) (g.enemy.Update kbI Key.KeyI Key.KeyK)
      g.score g.speedMultiplier rng hr hl
    have hsX := Ball.Update_no_exit_speedX g.ball
      (g.player.Update kbI Key.KeyW Key.KeyS) (g.enemy.Update kbI Key.KeyI Key.KeyK)
      g.score g.speedMultiplier rng hr hl
    have hsY := Ball.Update_no_exit_speedY g.ball
      (g.player.Update kbI Key.KeyW Key.KeyS) (g.enemy.Update kbI Key.KeyI Key.KeyK)
      g.score g.speedMultiplier rng hr hl
    have hscore := Ball.Update_no_exit_score g.ball
      (g.player.Update kbI Key.KeyW Key.KeyS) (g.enemy.Update kbI Key.KeyI Key.KeyK)
      g.score g.speedMultiplier rng hr hl
    have hrng := Ball.Update_no_exit_rng g.ball
      (g.player.Update kbI Key.KeyW Key.KeyS) (g.enemy.Update kbI Key.KeyI Key.KeyK)
      g.score g.speedMultiplier rng hr hl
    have hnoP : ¬ Ball.overlaps { g.ball with
        position := g.ball.position.Translate g.ball.speedX g.ball.speedY }
        (g.player.Update kbI Key.KeyW Key.KeyS) := by
      rw [Ball.overlaps_translated_iff, hpx']
      intro hc
      linarith [hc.1]
    have hnoE : ¬ Ball.overlaps { g.ball with
        position := g.ball.position.Translate g.ball.speedX g.ball.speedY }
        (g.enemy.Update kbI Key.KeyI Key.KeyK) := by
      rw [Ball.overlaps_translated_iff, hex', hey', hy, hvy]
      intro hc
      rcases hclear with hfar | ⟨k, hk, _, hkx, hkv, _⟩
      · have h3 := hc.2.2.1
        split_ifs at h3 <;> linarith
      · have hk' : (k : ℚ) ≤ 7 := by exact_mod_cast Nat.lt_succ_iff.mp hk
        linarith [hc.2.1]
    rw [if_neg hnoE, if_neg hnoP] at hsX
    have hnoW : ¬ (g.ball.position.Element 1 2 + g.ball.speedY
          - ((circleRadius / 2 : Nat) : ℚ) < 0 ∨
        g.ball.position.Element 1 2 + g.ball.speedY + ((circleRadius / 2 : Nat) : ℚ)
          > (screenHeight : ℚ)) := by
      rw [hy, hvy, halfCircle_eq, screenHeight_eq]
      norm_num
    rw [if_neg hnoW, hvy, zero_mul] at hsY
    rw [hpos, GeoM.Element_Translate_x, GeoM.Element_Translate_y, hsX, hsY, hscore, hrng,
      hy, hvy]
    rw [halfCircle_eq, screenWidth_eq] at hr
    have hvm : g.ball.speedX ≤ g.ball.speedX * g.speedMultiplier := by nlinarith
    refine ⟨⟨by norm_num, rfl, by linarith, by linarith, by linarith, by linarith, hd, hn,
      rfl, rfl, ?_, hsc⟩, Or.inl ⟨rfl, by linarith⟩⟩
    rw [hey']
    rcases hclear with hfar | ⟨k, hk, hky, hkx, hkv, hkm⟩
    · left
      split_ifs <;> linarith
    · have hk' : (k : ℚ) ≤ 7 := by exact_mod_cast Nat.lt_succ_iff.mp hk
      have hk0 : (0 : ℚ) ≤ (k : ℚ) := Nat.cast_nonneg k
      have hgt : g.enemy.position.Element 1 2 > 24 := by rw [hky]; linarith
      rw [if_pos hgt, hky]
      by_cases hk7 : k = 7
      · left
        subst hk7
        norm_num
      · right
        have hk6 : (k : ℚ) ≤ 6 := by
          have : k ≤ 6 := by omega
          exact_mod_cast this
        refine ⟨k + 1, by omega, by push_cast; ring, by push_cast; linarith, ?_, ?_⟩
        · push_cast
          have h1 : g.ball.speedX * g.speedMultiplier
              ≤ (1 / 2 + (k : ℚ) / 100) * (1 + (k : ℚ) / 1000) :=
            mul_le_mul hkv hkm (by linarith) (by linarith)
          nlinarith
        · push_cast
          rw [speedIncrease]
          linarith

theorem main_flightInv : FlightInv (main rngFlight) rngFlight := by
  have hb : (main rngFlight).ball = ballAt 160 120 (1 / 2) 0 := by
    simp only [main, ballAt, halfScreenWidth_eq, halfScreenHeight_eq, Rand.Float64, rngFlight]
    norm_num
  have hp := main_paddles_x rngFlight
  have he : (main rngFlight).enemy.position.Element 1 2 = 120 := by
    rw [(main_paddles_home rngFlight).2]; exact paddleAt_y _ _
  unfold FlightInv
  rw [hb, ballAt_x, ballAt_y, hp.1, hp.2, he]
  refine ⟨rfl, rfl, le_refl _, by norm_num, le_refl _, le_refl _, rfl, rfl, rfl, rfl,
    Or.inr ⟨0, by norm_num, by norm_num, by norm_num, ?_, ?_⟩, ?_⟩
  · show (1 / 2 : ℚ) ≤ 1 / 2 + ((0 : Nat) : ℚ) / 100
    norm_num
  · show (1 : ℚ) ≤ 1 + ((0 : Nat) : ℚ) / 1000
    norm_num
  · show (0 : Int) < 2 ^ 63
    norm_num

/-- As long as the stored score stays non-negative, the progress measure of the scoring
run grows by at least one per tick. -/
theorem flight_progress (n : Nat) (g : Game) (rng : Rand) (h : FlightInv g rng)
    (h0 : 0 ≤ g.score)
    (hall : ∀ k, k ≤ n → 0 ≤ (Game.run g rng (List.replicate k kbI)).1.score) :
    FlightInv (Game.run g rng (List.replicate n kbI)).1
        (Game.run g rng (List.replicate n kbI)).2 ∧
    flightProgress g + (n : ℚ)
      ≤ flightProgress (Game.run g rng (List.replicate n kbI)).1 := by
  induction n generalizing g rng with
  | zero =>
    refine ⟨h, ?_⟩
    show flightProgress g + ((0 : Nat) : ℚ) ≤ flightProgress g
    simp
  | succ n ih =>
    have e : ∀ k, Game.run g rng (List.replicate (k + 1) kbI)
        = Game.run (g.Update kbI rng).game (g.Update kbI rng).rng (List.replicate k kbI) :=
      fun _ => rfl
    obtain ⟨hinv, hstep⟩ := h.step
    have h1 : 0 ≤ (g.Update kbI rng).game.score := by
      have := hall 1 (by omega)
      rw [e 0] at this
      exact this
    have hall' : ∀ k, k ≤ n →
        0 ≤ (Game.run (g.Update kbI rng).game (g.Update kbI rng).rng
          (List.replicate k kbI)).1.score := by
      intro k hk
      have := hall (k + 1) (by omega)
      rw [e k] at this
      exact this
    obtain ⟨hI, hP⟩ := ih (g.Update kbI rng).game (g.Update kbI rng).rng hinv h1 hall'
    rw [e n]
    refine ⟨hI, le_trans ?_ hP⟩
    have hx2 : g.ball.position.Element 0 2 ≤ 312 := h.2.2.2.1
    have hsc : g.score < 2 ^ 63 := h.2.2.2.2.2.2.2.2.2.2.2
    push_cast
    unfold flightProgress
    rcases hstep with ⟨hs, hx⟩ | ⟨hs, hx⟩
    · rw [hs]
      linarith
    · have hw : wrapInt (g.score + 1) = g.score + 1 := by
        by_cases hlt : g.score + 1 < 2 ^ 63
        · exact wrapInt_of_inRange _ (by omega) hlt
        · exfalso
          have hmax : g.score + 1 = 2 ^ 63 := by omega
          rw [hs, hmax] at h1
          have : wrapInt (2 ^ 63) < 0 := by
            unfold wrapInt
            norm_num
          omega
      rw [hs, hw, hx]
      push_cast
      linarith

/-- If the stored score never went negative along the scoring run, the number of ticks
would be bounded. -/
theorem flight_ticks_bounded (N : Nat)
    (hno : ∀ k : Nat,
      0 ≤ (Game.run (main rngFlight) rngFlight (List.replicate k kbI)).1.score) :
    (N : ℚ) ≤ 305 * 2 ^ 63 - 1 := by
  have h0 : (0 : Int) ≤ (main rngFlight).score := le_refl _
  obtain ⟨hI, hP⟩ := flight_progress N (main rngFlight) rngFlight
    main_flightInv h0 (fun k _ => hno k)
  have hx2 := hI.2.2.2.1
  have hsc := hI.2.2.2.2.2.2.2.2.2.2.2
  have hsc' : ((Game.run (main rngFlight) rngFlight
      (List.replicate N kbI)).1.score : ℚ) ≤ 2 ^ 63 - 1 := by
    have : (Game.run (main rngFlight) rngFlight
        (List.replicate N kbI)).1.score ≤ 2 ^ 63 - 1 := by omega
    exact_mod_cast this
  have hstart : flightProgress (main rngFlight) = 0 := by
    have hb : (main rngFlight).ball.position.Element 0 2 = 160 := by
      have := main_flightInv.2.2.1
      have h2 : (main rngFlight).ball.position.Element 0 2 ≤ 160 := by
        simp only [main, GeoM.zero, GeoM.Translate, GeoM.Element, halfScreenWidth_eq]
        norm_num
      linarith
    unfold flightProgress
    rw [hb]
    show 305 * ((0 : Int) : ℚ) + 2 * (160 - 160) = 0
    norm_num
  rw [hstart] at hP
  unfold flightProgress at hP
  linarith

/-- C13, as stated, fails on the Go `int` score: along the run of the game of `main`
with draws `3/4, 1/2, 3/4, 1/2, ...` (all in `[0, 1)`) and only the key `I` held, the ball
flies to the right along `y = 120` and scores at least once every 305 ticks, for ever;
the stored score therefore reaches `2^63 - 1`, and the next point wraps it to a negative
value: some reachable state has a negative score. -/
theorem C13_counterexample :
    rngFlight.InUnit ∧
    ∃ n : Nat, (Game.run (main rngFlight) rngFlight (List.replicate n kbI)).1.score < 0 := by
  refine ⟨rngFlight_inUnit, ?_⟩
  by_contra hno
  push_neg at hno
  have h := flight_ticks_bounded (305 * 2 ^ 63) hno
  push_cast at h
  linarith

end Pong
